import Mathlib

/-! Varlena header macros of `src/codecs/pg_lz/pg_lzcompress.h`.

The header file defines the varlena length-word macros twice, once under
`WORDS_BIGENDIAN` and once for little-endian machines.  Both families are
embedded here as functions of an `Endian` parameter.

A pointer `PTR` is embedded as the memory it points to (`Mem`, the byte stored
at each offset from `PTR`).  The struct overlays become loads and stores:

* `((varattrib_1b *) PTR)->va_header`            is the byte at offset 0,
* `((varattrib_1b_e *) PTR)->va_len_1be`         is the byte at offset 1,
* `((varattrib_4b *) PTR)->va_4byte.va_header`   is the `uint32` at offset 0,
* `((varattrib_4b *) PTR)->va_compressed.va_rawsize` is the `uint32` at offset 4,

a `uint32` being laid out in the byte order of the machine.  A macro that
assigns returns the memory after the assignment.  The `len` argument of the
`SET_` macros is an arbitrary C integer (`Int`); conversions to `uint8` and
`uint32` reduce modulo `2^8` and `2^32`.

`VARHDRSZ`, which the header uses without defining it, is a parameter of the
macros that mention it.  `pglz_compress` and `pglz_decompress` are declared in
the header but defined elsewhere; they are modelled from the specification
over an abstract tag/literal stream.
-/

namespace PgLz

/-- Byte order of the machine: `big` when `WORDS_BIGENDIAN` is defined,
`little` otherwise. -/
inductive Endian where
  | big
  | little
deriving DecidableEq, Repr

/-- The memory a pointer refers to: the content of the byte at each offset. -/
abbrev Mem := Nat → Nat

/-- Read of a `uint8` at offset `off`. -/
def load8 (m : Mem) (off : Nat) : Nat := m off % 256

/-- Write of a `uint8` at offset `off`. -/
def store8 (m : Mem) (off v : Nat) : Mem :=
  fun i => if i = off then v % 256 else m i

/-- Read of a `uint32` at offset `off`, in the byte order of the machine. -/
def load32 (e : Endian) (m : Mem) (off : Nat) : Nat :=
  match e with
  | .big =>
      16777216 * load8 m off + 65536 * load8 m (off + 1)
        + 256 * load8 m (off + 2) + load8 m (off + 3)
  | .little =>
      load8 m off + 256 * load8 m (off + 1)
        + 65536 * load8 m (off + 2) + 16777216 * load8 m (off + 3)

/-- Write of a `uint32` at offset `off`, in the byte order of the machine. -/
def store32 (e : Endian) (m : Mem) (off v : Nat) : Mem :=
  match e with
  | .big =>
      store8 (store8 (store8 (store8 m off (v / 16777216)) (off + 1) (v / 65536))
        (off + 2) (v / 256)) (off + 3) v
  | .little =>
      store8 (store8 (store8 (store8 m off v) (off + 1) (v / 256))
        (off + 2) (v / 65536)) (off + 3) (v / 16777216)

/-- Conversion of a C integer to `uint8`. -/
def toUint8 (x : Int) : Nat := (x % 256).toNat

/-- Conversion of a C integer to `uint32`. -/
def toUint32 (x : Int) : Nat := (x % 4294967296).toNat

/-! ## Struct fields -/

/-- `((varattrib_1b *) PTR)->va_header`, also `((varattrib_1b_e *) PTR)->va_header`. -/
def va_header_1b (PTR : Mem) : Nat := load8 PTR 0

/-- `((varattrib_1b_e *) PTR)->va_len_1be`. -/
def va_len_1be (PTR : Mem) : Nat := load8 PTR 1

/-- `((varattrib_4b *) PTR)->va_4byte.va_header`. -/
def va_header_4b (e : Endian) (PTR : Mem) : Nat := load32 e PTR 0

/-- `((varattrib_4b *) PTR)->va_compressed.va_rawsize`. -/
def va_rawsize (e : Endian) (PTR : Mem) : Nat := load32 e PTR 4

/-- Assignment to `((varattrib_1b *) PTR)->va_header`. -/
def set_va_header_1b (PTR : Mem) (v : Nat) : Mem := store8 PTR 0 v

/-- Assignment to `((varattrib_1b_e *) PTR)->va_len_1be`. -/
def set_va_len_1be (PTR : Mem) (v : Nat) : Mem := store8 PTR 1 v

/-- Assignment to `((varattrib_4b *) PTR)->va_4byte.va_header`. -/
def set_va_header_4b (e : Endian) (PTR : Mem) (v : Nat) : Mem := store32 e PTR 0 v

/-- Assignment to `((varattrib_4b *) PTR)->va_compressed.va_rawsize`. -/
def set_va_rawsize (e : Endian) (PTR : Mem) (v : Nat) : Mem := store32 e PTR 4 v

/-! ## Endian-dependent macros -/

def VARATT_IS_4B (e : Endian) (PTR : Mem) : Bool :=
  match e with
  | .big => (va_header_1b PTR &&& 0x80) == 0x00
  | .little => (va_header_1b PTR &&& 0x01) == 0x00

def VARATT_IS_4B_U (e : Endian) (PTR : Mem) : Bool :=
  match e with
  | .big => (va_header_1b PTR &&& 0xC0) == 0x00
  | .little => (va_header_1b PTR &&& 0x03) == 0x00

def VARATT_IS_4B_C (e : Endian) (PTR : Mem) : Bool :=
  match e with
  | .big => (va_header_1b PTR &&& 0xC0) == 0x40
  | .little => (va_header_1b PTR &&& 0x03) == 0x02

def VARATT_IS_1B (e : Endian) (PTR : Mem) : Bool :=
  match e with
  | .big => (va_header_1b PTR &&& 0x80) == 0x80
  | .little => (va_header_1b PTR &&& 0x01) == 0x01

def VARATT_IS_1B_E (e : Endian) (PTR : Mem) : Bool :=
  match e with
  | .big => va_header_1b PTR == 0x80
  | .little => va_header_1b PTR == 0x01

/-- `*((uint8 *) PTR) != 0`, the same in both families. -/
def VARATT_NOT_PAD_BYTE (PTR : Mem) : Bool :=
  load8 PTR 0 != 0

def VARSIZE_4B (e : Endian) (PTR : Mem) : Nat :=
  match e with
  | .big => va_header_4b .big PTR &&& 0x3FFFFFFF
  | .little => (va_header_4b .little PTR >>> 2) &&& 0x3FFFFFFF

def VARSIZE_1B (e : Endian) (PTR : Mem) : Nat :=
  match e with
  | .big => va_header_1b PTR &&& 0x7F
  | .little => (va_header_1b PTR >>> 1) &&& 0x7F

/-- `((varattrib_1b_e *) PTR)->va_len_1be`, the same in both families. -/
def VARSIZE_1B_E (PTR : Mem) : Nat :=
  va_len_1be PTR

def SET_VARSIZE_4B (e : Endian) (PTR : Mem) (len : Int) : Mem :=
  match e with
  | .big => set_va_header_4b .big PTR (toUint32 (Int.land len 0x3FFFFFFF))
  | .little => set_va_header_4b .little PTR ((toUint32 len <<< 2) % 4294967296)

def SET_VARSIZE_4B_C (e : Endian) (PTR : Mem) (len : Int) : Mem :=
  match e with
  | .big =>
      set_va_header_4b .big PTR (toUint32 (Int.lor (Int.land len 0x3FFFFFFF) 0x40000000))
  | .little =>
      set_va_header_4b .little PTR (((toUint32 len <<< 2) % 4294967296) ||| 0x02)

def SET_VARSIZE_1B (e : Endian) (PTR : Mem) (len : Int) : Mem :=
  match e with
  | .big => set_va_header_1b PTR (toUint8 (Int.lor len 0x80))
  | .little => set_va_header_1b PTR (((toUint8 len <<< 1) ||| 0x01) % 256)

def SET_VARSIZE_1B_E (e : Endian) (PTR : Mem) (len : Int) : Mem :=
  match e with
  | .big => set_va_len_1be (set_va_header_1b PTR 0x80) (toUint8 len)
  | .little => set_va_len_1be (set_va_header_1b PTR 0x01) (toUint8 len)

/-! ## Externally visible macros -/

def VARSIZE (e : Endian) (PTR : Mem) : Nat := VARSIZE_4B e PTR

def VARSIZE_SHORT (e : Endian) (PTR : Mem) : Nat := VARSIZE_1B e PTR

def VARSIZE_EXTERNAL (PTR : Mem) : Nat := VARSIZE_1B_E PTR

def VARATT_IS_COMPRESSED (e : Endian) (PTR : Mem) : Bool := VARATT_IS_4B_C e PTR

def VARATT_IS_EXTERNAL (e : Endian) (PTR : Mem) : Bool := VARATT_IS_1B_E e PTR

def VARATT_IS_SHORT (e : Endian) (PTR : Mem) : Bool := VARATT_IS_1B e PTR

def VARATT_IS_EXTENDED (e : Endian) (PTR : Mem) : Bool := !VARATT_IS_4B_U e PTR

def SET_VARSIZE (e : Endian) (PTR : Mem) (len : Int) : Mem := SET_VARSIZE_4B e PTR len

def SET_VARSIZE_SHORT (e : Endian) (PTR : Mem) (len : Int) : Mem := SET_VARSIZE_1B e PTR len

def SET_VARSIZE_COMPRESSED (e : Endian) (PTR : Mem) (len : Int) : Mem :=
  SET_VARSIZE_4B_C e PTR len

def SET_VARSIZE_EXTERNAL (e : Endian) (PTR : Mem) (len : Int) : Mem :=
  SET_VARSIZE_1B_E e PTR len

def VARSIZE_ANY (e : Endian) (PTR : Mem) : Nat :=
  if VARATT_IS_1B_E e PTR then VARSIZE_1B_E PTR
  else if VARATT_IS_1B e PTR then VARSIZE_1B e PTR
  else VARSIZE_4B e PTR

/-! ## Short-header conversion, raw size and output-buffer size -/

def VARHDRSZ_SHORT : Nat := 1

def VARATT_SHORT_MAX : Nat := 0x7F

def VARHDRSZ_EXTERNAL : Nat := 2

/-- `VARSIZE(PTR) - VARHDRSZ + VARHDRSZ_SHORT`.  `VARHDRSZ` is not defined in
this header and is taken as a parameter; `VARSIZE(PTR)` is a `uint32`, so the
sum is carried out in `uint32`. -/
def VARATT_CONVERTED_SHORT_SIZE (VARHDRSZ : Int) (e : Endian) (PTR : Mem) : Nat :=
  toUint32 ((VARSIZE e PTR : Int) - VARHDRSZ + (VARHDRSZ_SHORT : Int))

def VARATT_CAN_MAKE_SHORT (VARHDRSZ : Int) (e : Endian) (PTR : Mem) : Bool :=
  VARATT_IS_4B_U e PTR &&
    decide (toUint32 ((VARSIZE e PTR : Int) - VARHDRSZ + (VARHDRSZ_SHORT : Int))
      ≤ VARATT_SHORT_MAX)

def VARRAWSIZE_4B_C (e : Endian) (PTR : Mem) : Nat := va_rawsize e PTR

/-- The three branches have types `int`, `int` and `uint32`; the conditional
expression converts its value to `uint32`. -/
def VARSIZE_ANY_EXHDR (VARHDRSZ : Int) (e : Endian) (PTR : Mem) : Nat :=
  if VARATT_IS_1B_E e PTR then
    toUint32 ((VARSIZE_1B_E PTR : Int) - (VARHDRSZ_EXTERNAL : Int))
  else if VARATT_IS_1B e PTR then
    toUint32 ((VARSIZE_1B e PTR : Int) - (VARHDRSZ_SHORT : Int))
  else
    toUint32 ((VARSIZE_4B e PTR : Int) - VARHDRSZ)

/-- The kind classification of a header: the values of the five kind
predicates `VARATT_IS_4B`, `VARATT_IS_4B_U`, `VARATT_IS_4B_C`, `VARATT_IS_1B`
and `VARATT_IS_1B_E` on it. -/
def kind_predicates (e : Endian) (PTR : Mem) : Bool × Bool × Bool × Bool × Bool :=
  (VARATT_IS_4B e PTR, VARATT_IS_4B_U e PTR, VARATT_IS_4B_C e PTR,
    VARATT_IS_1B e PTR, VARATT_IS_1B_E e PTR)

/-! ## The compressor and the decompressor

`pglz_compress` and `pglz_decompress` are only declared in this header.  The
struct `PGLZ_Strategy` and `PGLZ_RAW_SIZE` are defined in it; everything else
in this section is modelled from the specification. -/

/-- `PGLZ_Strategy`: the six `int32` parameters of the compression algorithm. -/
structure PGLZ_Strategy where
  min_input_size : Int
  max_input_size : Int
  min_comp_rate : Int
  first_success_by : Int
  match_size_good : Int
  match_size_drop : Int

/-- Modelled from the spec: an element of the tag/literal stream, whose byte
layout is missing (the spec leaves it open): a literal byte or a match tag
`(offset, length)`. -/
inductive Token where
  | literal (byte : Nat)
  | tag (offset length : Nat)
deriving DecidableEq, Repr

/-- Modelled from the spec: the compressed block that `pglz_compress` writes
at `dest`, "`raw_len` plus an opaque tag/literal byte stream": the `rawsize`
field of the `PGLZ_Header` and the stream that follows the header. -/
structure CompressedBlock where
  rawsize : Nat
  stream : List Token
deriving DecidableEq, Repr

/-- `(_lzdata)->rawsize`. -/
def PGLZ_RAW_SIZE (_lzdata : CompressedBlock) : Nat := _lzdata.rawsize

/-- Modelled from the spec: the expansion of a match tag, missing with
`pglz_decompress`: `length` bytes are copied from `current_position - offset`
in the output already produced, one byte at a time. -/
def copyMatch (out : List Nat) (offset : Nat) : Nat → List Nat
  | 0 => out
  | length + 1 => copyMatch (out ++ [out.getD (out.length - offset) 0]) offset length

/-- Modelled from the spec: the single forward pass of `pglz_decompress` over
the tag/literal stream.  `none` is `CorruptStream`: a tag with offset 0 or with
an offset exceeding the bytes produced so far, a copy or literal that would
exceed `expected_raw_len`, or an end of stream with another number of bytes. -/
def decompressLoop (expected_raw_len : Nat) : List Token → List Nat → Option (List Nat)
  | [], out => if out.length = expected_raw_len then some out else none
  | Token.literal byte :: rest, out =>
      if expected_raw_len < out.length + 1 then none
      else decompressLoop expected_raw_len rest (out ++ [byte])
  | Token.tag offset length :: rest, out =>
      if offset = 0 ∨ out.length < offset ∨ expected_raw_len < out.length + length then none
      else decompressLoop expected_raw_len rest (copyMatch out offset length)

/-- Modelled from the spec: `pglz_decompress`, declared in this header only.
The expected raw length is `PGLZ_RAW_SIZE(source)`; the result is the content
of the output buffer, `none` when the function fails. -/
def pglz_decompress (source : CompressedBlock) : Option (List Nat) :=
  decompressLoop (PGLZ_RAW_SIZE source) source.stream []

/-- Modelled from the spec: the match length of the compressor, missing with
`pglz_compress`, "by direct byte comparison": the number of leading bytes on
which the input at the candidate position and at the current position agree. -/
def matchLength : List Nat → List Nat → Nat
  | a :: as, b :: bs => if a = b then matchLength as bs + 1 else 0
  | _, _ => 0

/-- Modelled from the spec: the key of the hash table of the compressor, the
4-byte prefix of the input at a position. -/
def keyAt (raw : List Nat) (pos : Nat) : List Nat := (raw.drop pos).take 4

/-- Modelled from the spec: the hash chain of the compressor at a position:
the prior positions that share its 4-byte prefix, the most recent first. -/
def historyChain (raw : List Nat) (pos : Nat) : List Nat :=
  if (keyAt raw pos).length = 4 then
    (List.range pos).reverse.filter (fun cand => keyAt raw cand == keyAt raw pos)
  else []

/-- Modelled from the spec: the walk of the compressor along the chain.  The
first candidate whose match length meets the current threshold is accepted;
after each unsuccessful probe the threshold shrinks by `match_size_drop`
percent.  The result is the `(offset, length)` of the tag. -/
def findMatch (raw : List Nat) (pos : Nat) (match_size_drop : Int) :
    List Nat → Int → Option (Nat × Nat)
  | [], _ => none
  | cand :: rest, good =>
      if good ≤ (matchLength (raw.drop cand) (raw.drop pos) : Int) then
        some (pos - cand, matchLength (raw.drop cand) (raw.drop pos))
      else
        findMatch raw pos match_size_drop rest (good - good * match_size_drop / 100)

/-- Modelled from the spec: the scan of `pglz_compress` over the input, one
step per input byte (`remaining` bytes are left at `pos`; `skip` of them are
covered by the tag emitted last).  `none` is `Declined`: the running output
count `outBytes` has reached the input length, or no match was found within
the first `first_success_by` bytes.  `cost` is the number of output bytes a
token takes, which the spec leaves open. -/
def compressLoop (cost : Token → Nat) (raw : List Nat) (strategy : PGLZ_Strategy) :
    Nat → Nat → Nat → Bool → Nat → Option (List Token)
  | 0, _, _, _, _ => some []
  | remaining + 1, pos, skip + 1, found, outBytes =>
      compressLoop cost raw strategy remaining (pos + 1) skip found outBytes
  | remaining + 1, pos, 0, found, outBytes =>
      if raw.length ≤ outBytes then none
      else if found = false ∧ strategy.first_success_by ≤ (pos : Int) then none
      else
        match findMatch raw pos strategy.match_size_drop (historyChain raw pos)
            strategy.match_size_good with
        | some (offset, length) =>
            (compressLoop cost raw strategy remaining (pos + 1) (length - 1) true
              (outBytes + cost (Token.tag offset length))).map
              (fun rest => Token.tag offset length :: rest)
        | none =>
            (compressLoop cost raw strategy remaining (pos + 1) 0 found
              (outBytes + cost (Token.literal (raw.getD pos 0)))).map
              (fun rest => Token.literal (raw.getD pos 0) :: rest)

/-- Modelled from the spec: the compressed size of a stream, the sum of the
costs of its tokens. -/
def streamSize (cost : Token → Nat) (stream : List Token) : Nat :=
  (stream.map cost).sum

/-- Modelled from the spec: `pglz_compress`, declared in this header only, on
the `slen = source.length` bytes of `source`.  `some dest` is a return of
`true` with the block written at `dest`, `none` is `Declined` (a return of
`false`): the input length is outside `min_input_size..max_input_size`, the
scan declined, the compressed size is not strictly smaller than the input, or
it exceeds `len * (100 - min_comp_rate) / 100`. -/
def pglz_compress (cost : Token → Nat) (source : List Nat) (strategy : PGLZ_Strategy) :
    Option CompressedBlock :=
  if (source.length : Int) < strategy.min_input_size ∨
      strategy.max_input_size < (source.length : Int) then none
  else
    match compressLoop cost source strategy source.length 0 0 false 0 with
    | none => none
    | some stream =>
        if source.length ≤ streamSize cost stream then none
        else if (source.length : Int) * (100 - strategy.min_comp_rate) / 100
            < (streamSize cost stream : Int) then none
        else some { rawsize := source.length, stream := stream }

/-- A token cost for examples: one byte for a literal, three for a tag. -/
def exampleCost : Token → Nat
  | Token.literal _ => 1
  | Token.tag _ _ => 3

/-- A strategy for examples: any input size, no required rate, matches of 4
bytes accepted at once. -/
def exampleStrategy : PGLZ_Strategy :=
  { min_input_size := 0, max_input_size := 2147483647, min_comp_rate := 0,
    first_success_by := 2147483647, match_size_good := 4, match_size_drop := 6 }

/-- A memory whose bytes are all zero. -/
def zeroMem : Mem := fun _ => 0


/-! ## Arithmetic of the conversions and of memory -/

theorem toUint8_lt (x : Int) : toUint8 x < 256 := by
  unfold toUint8; omega

theorem toUint32_lt (x : Int) : toUint32 x < 4294967296 := by
  unfold toUint32; omega

theorem toUint8_ofNat (n : Nat) : toUint8 (n : Int) = n % 256 := by
  unfold toUint8; omega

theorem toUint32_ofNat (n : Nat) : toUint32 (n : Int) = n % 4294967296 := by
  unfold toUint32; omega

theorem toUint8_negSucc (n : Nat) : toUint8 (Int.negSucc n) = 255 - n % 256 := by
  unfold toUint8; rw [Int.negSucc_eq]; omega

theorem toUint32_negSucc (n : Nat) :
    toUint32 (Int.negSucc n) = 4294967295 - n % 4294967296 := by
  unfold toUint32; rw [Int.negSucc_eq]; omega

theorem or_mod_two_pow (a b k : Nat) : (a ||| b) % 2 ^ k = a % 2 ^ k ||| b % 2 ^ k := by
  apply Nat.eq_of_testBit_eq
  intro i
  simp only [Nat.testBit_mod_two_pow, Nat.testBit_or]
  cases decide (i < k) <;> simp

theorem and_mod_two_pow (a b k : Nat) : (a &&& b) % 2 ^ k = a % 2 ^ k &&& b % 2 ^ k := by
  apply Nat.eq_of_testBit_eq
  intro i
  simp only [Nat.testBit_mod_two_pow, Nat.testBit_and]
  cases decide (i < k) <;> simp

theorem load8_lt (m : Mem) (o : Nat) : load8 m o < 256 := by
  unfold load8; omega

theorem load8_store8_same (m : Mem) (o v : Nat) : load8 (store8 m o v) o = v % 256 := by
  simp [load8, store8]

theorem load8_store8_ne (m : Mem) (o v i : Nat) (h : i ≠ o) :
    load8 (store8 m o v) i = load8 m i := by
  simp [load8, store8, h]

theorem load8_store32_little (m : Mem) (v : Nat) :
    load8 (store32 .little m 0 v) 0 = v % 256 := by
  simp [load8, store8, store32]

theorem load8_store32_big (m : Mem) (v : Nat) :
    load8 (store32 .big m 0 v) 0 = v / 16777216 % 256 := by
  simp [load8, store8, store32]

theorem load32_store32 (e : Endian) (m : Mem) (o v : Nat) :
    load32 e (store32 e m o v) o = v % 4294967296 := by
  cases e <;> simp [load32, load8, store8, store32] <;> omega


theorem ldiff_mod_two_pow (a b k : Nat) :
    Nat.ldiff a b % 2 ^ k = Nat.ldiff (a % 2 ^ k) (b % 2 ^ k) := by
  apply Nat.eq_of_testBit_eq
  intro i
  simp only [Nat.testBit_mod_two_pow, Nat.testBit_ldiff]
  cases decide (i < k) <;> simp

/-- Two's complement of a byte: complementing `x` below bit `k`. -/
theorem testBit_compl (k x i : Nat) (h : x < 2 ^ k) :
    (2 ^ k - 1 - x).testBit i = (decide (i < k) && !x.testBit i) := by
  have : 2 ^ k - 1 - x = 2 ^ k - (x + 1) := by omega
  rw [this, Nat.testBit_two_pow_sub_succ h]

theorem toUint8_lor (L : Int) (c : Nat) :
    toUint8 (Int.lor L (c : Int)) = toUint8 L ||| c % 256 := by
  cases L with
  | ofNat n =>
    show toUint8 ((n ||| c : Nat) : Int) = _
    rw [toUint8_ofNat]
    show _ = toUint8 (n : Int) ||| _
    rw [toUint8_ofNat]
    exact or_mod_two_pow n c 8
  | negSucc n =>
    show toUint8 (Int.negSucc (Nat.ldiff n c)) = _
    rw [toUint8_negSucc, toUint8_negSucc]
    apply Nat.eq_of_testBit_eq
    intro i
    have h1 := testBit_compl 8 (Nat.ldiff n c % 256) i (by omega)
    have h2 := testBit_compl 8 (n % 256) i (by omega)
    simp only [Nat.reducePow, Nat.reduceSub] at h1 h2
    rw [h1, Nat.testBit_or, h2]
    have h3 := Nat.testBit_mod_two_pow (Nat.ldiff n c) 8 i
    have h4 := Nat.testBit_mod_two_pow n 8 i
    have h5 := Nat.testBit_mod_two_pow c 8 i
    simp only [Nat.reducePow] at h3 h4 h5
    rw [h3, h4, h5, Nat.testBit_ldiff]
    cases decide (i < 8) <;> cases n.testBit i <;> cases c.testBit i <;> rfl


theorem toUint32_lor (L : Int) (c : Nat) :
    toUint32 (Int.lor L (c : Int)) = toUint32 L ||| c % 4294967296 := by
  cases L with
  | ofNat n =>
    show toUint32 ((n ||| c : Nat) : Int) = _
    rw [toUint32_ofNat]
    show _ = toUint32 (n : Int) ||| _
    rw [toUint32_ofNat]
    exact or_mod_two_pow n c 32
  | negSucc n =>
    show toUint32 (Int.negSucc (Nat.ldiff n c)) = _
    rw [toUint32_negSucc, toUint32_negSucc]
    apply Nat.eq_of_testBit_eq
    intro i
    have h1 := testBit_compl 32 (Nat.ldiff n c % 4294967296) i (by omega)
    have h2 := testBit_compl 32 (n % 4294967296) i (by omega)
    simp only [Nat.reducePow, Nat.reduceSub] at h1 h2
    rw [h1, Nat.testBit_or, h2]
    have h3 := Nat.testBit_mod_two_pow (Nat.ldiff n c) 32 i
    have h4 := Nat.testBit_mod_two_pow n 32 i
    have h5 := Nat.testBit_mod_two_pow c 32 i
    simp only [Nat.reducePow] at h3 h4 h5
    rw [h3, h4, h5, Nat.testBit_ldiff]
    cases decide (i < 32) <;> cases n.testBit i <;> cases c.testBit i <;> rfl

theorem toUint32_land (L : Int) (c : Nat) :
    toUint32 (Int.land L (c : Int)) = toUint32 L &&& c % 4294967296 := by
  cases L with
  | ofNat n =>
    show toUint32 ((n &&& c : Nat) : Int) = _
    rw [toUint32_ofNat]
    show _ = toUint32 (n : Int) &&& _
    rw [toUint32_ofNat]
    exact and_mod_two_pow n c 32
  | negSucc n =>
    show toUint32 ((Nat.ldiff c n : Nat) : Int) = _
    rw [toUint32_ofNat, toUint32_negSucc]
    apply Nat.eq_of_testBit_eq
    intro i
    have h2 := testBit_compl 32 (n % 4294967296) i (by omega)
    simp only [Nat.reducePow, Nat.reduceSub] at h2
    rw [Nat.testBit_and, h2]
    have h3 := Nat.testBit_mod_two_pow (Nat.ldiff c n) 32 i
    have h4 := Nat.testBit_mod_two_pow n 32 i
    have h5 := Nat.testBit_mod_two_pow c 32 i
    simp only [Nat.reducePow] at h3 h4 h5
    rw [h3, h4, h5, Nat.testBit_ldiff]
    cases decide (i < 32) <;> cases n.testBit i <;> cases c.testBit i <;> rfl

theorem and_0x3FFFFFFF (x : Nat) : x &&& 0x3FFFFFFF = x % 1073741824 :=
  Nat.and_pow_two_sub_one_eq_mod x 30

theorem shiftRight_two (x : Nat) : x >>> 2 = x / 4 :=
  Nat.shiftRight_eq_div_pow x 2

theorem shiftLeft_two (x : Nat) : x <<< 2 = x * 4 :=
  Nat.shiftLeft_eq x 2

theorem or_two_of_mul_four (y : Nat) (h : y % 4 = 0) : y ||| 0x02 = y + 2 := by
  have h1 := Nat.mul_add_lt_is_or (show 2 < 2 ^ 2 by decide) (y / 4)
  have h2 : 2 ^ 2 * (y / 4) = y := by omega
  rw [h2] at h1
  exact h1.symm

theorem or_0x40000000 (a : Nat) (h : a < 1073741824) : a ||| 0x40000000 = a + 1073741824 := by
  have h1 := Nat.mul_add_lt_is_or (show a < 2 ^ 30 by omega) 1
  rw [Nat.lor_comm] at h1
  simpa [Nat.add_comm] using h1.symm


set_option maxRecDepth 100000 in
theorem byte_table : ∀ b, b < 256 →
    b &&& 0x01 = b % 2 ∧ b &&& 0x03 = b % 4 ∧ b &&& 0x7F = b % 128 ∧
    b &&& 0x80 = 128 * (b / 128) ∧ b &&& 0xC0 = 64 * (b / 64) ∧
    b >>> 1 = b / 2 ∧ b ||| 0x80 = 128 + b % 128 ∧ (b <<< 1) ||| 0x01 = 2 * b + 1 := by
  decide

theorem va_header_1b_lt (PTR : Mem) : va_header_1b PTR < 256 := load8_lt PTR 0

theorem header_SET_VARSIZE_1B_little (PTR : Mem) (len : Int) :
    va_header_1b (SET_VARSIZE_1B .little PTR len) = (2 * toUint8 len + 1) % 256 := by
  have h := (byte_table (toUint8 len) (toUint8_lt len)).2.2.2.2.2.2.2
  simp only [SET_VARSIZE_1B, set_va_header_1b, va_header_1b, load8_store8_same, h]
  omega

theorem header_SET_VARSIZE_1B_big (PTR : Mem) (len : Int) :
    va_header_1b (SET_VARSIZE_1B .big PTR len) = 128 + toUint8 len % 128 := by
  have h := (byte_table (toUint8 len) (toUint8_lt len)).2.2.2.2.2.2.1
  have h2 := toUint8_lor len 0x80
  simp only [Nat.cast_ofNat, Nat.reduceMod] at h2
  simp only [SET_VARSIZE_1B, set_va_header_1b, va_header_1b, load8_store8_same, h2, h]
  omega


/-! ### The macros in arithmetic form -/

theorem VARATT_IS_4B_big (PTR : Mem) :
    VARATT_IS_4B .big PTR = true ↔ va_header_1b PTR < 128 := by
  have h := (byte_table _ (va_header_1b_lt PTR)).2.2.2.1
  have := va_header_1b_lt PTR
  simp only [VARATT_IS_4B, beq_iff_eq, h]; omega

theorem VARATT_IS_4B_little (PTR : Mem) :
    VARATT_IS_4B .little PTR = true ↔ va_header_1b PTR % 2 = 0 := by
  have h := (byte_table _ (va_header_1b_lt PTR)).1
  simp only [VARATT_IS_4B, beq_iff_eq, h]

theorem VARATT_IS_4B_U_big (PTR : Mem) :
    VARATT_IS_4B_U .big PTR = true ↔ va_header_1b PTR < 64 := by
  have h := (byte_table _ (va_header_1b_lt PTR)).2.2.2.2.1
  have := va_header_1b_lt PTR
  simp only [VARATT_IS_4B_U, beq_iff_eq, h]; omega

theorem VARATT_IS_4B_U_little (PTR : Mem) :
    VARATT_IS_4B_U .little PTR = true ↔ va_header_1b PTR % 4 = 0 := by
  have h := (byte_table _ (va_header_1b_lt PTR)).2.1
  simp only [VARATT_IS_4B_U, beq_iff_eq, h]

theorem VARATT_IS_4B_C_big (PTR : Mem) :
    VARATT_IS_4B_C .big PTR = true ↔ 64 ≤ va_header_1b PTR ∧ va_header_1b PTR < 128 := by
  have h := (byte_table _ (va_header_1b_lt PTR)).2.2.2.2.1
  have := va_header_1b_lt PTR
  simp only [VARATT_IS_4B_C, beq_iff_eq, h]; omega

theorem VARATT_IS_4B_C_little (PTR : Mem) :
    VARATT_IS_4B_C .little PTR = true ↔ va_header_1b PTR % 4 = 2 := by
  have h := (byte_table _ (va_header_1b_lt PTR)).2.1
  simp only [VARATT_IS_4B_C, beq_iff_eq, h]

theorem VARATT_IS_1B_big (PTR : Mem) :
    VARATT_IS_1B .big PTR = true ↔ 128 ≤ va_header_1b PTR := by
  have h := (byte_table _ (va_header_1b_lt PTR)).2.2.2.1
  have := va_header_1b_lt PTR
  simp only [VARATT_IS_1B, beq_iff_eq, h]; omega

theorem VARATT_IS_1B_little (PTR : Mem) :
    VARATT_IS_1B .little PTR = true ↔ va_header_1b PTR % 2 = 1 := by
  have h := (byte_table _ (va_header_1b_lt PTR)).1
  simp only [VARATT_IS_1B, beq_iff_eq, h]

theorem VARATT_IS_1B_E_big (PTR : Mem) :
    VARATT_IS_1B_E .big PTR = true ↔ va_header_1b PTR = 128 := by
  simp only [VARATT_IS_1B_E, beq_iff_eq]

theorem VARATT_IS_1B_E_little (PTR : Mem) :
    VARATT_IS_1B_E .little PTR = true ↔ va_header_1b PTR = 1 := by
  simp only [VARATT_IS_1B_E, beq_iff_eq]

theorem VARATT_NOT_PAD_BYTE_iff (PTR : Mem) :
    VARATT_NOT_PAD_BYTE PTR = true ↔ va_header_1b PTR ≠ 0 := by
  simp only [VARATT_NOT_PAD_BYTE, va_header_1b, bne_iff_ne]

theorem VARSIZE_1B_big (PTR : Mem) : VARSIZE_1B .big PTR = va_header_1b PTR % 128 := by
  have h := (byte_table _ (va_header_1b_lt PTR)).2.2.1
  simp only [VARSIZE_1B, h]

theorem VARSIZE_1B_little (PTR : Mem) : VARSIZE_1B .little PTR = va_header_1b PTR / 2 := by
  have h := (byte_table _ (va_header_1b_lt PTR)).2.2.2.2.2.1
  have := va_header_1b_lt PTR
  have h2 := (byte_table (va_header_1b PTR / 2) (by omega)).2.2.1
  simp only [VARSIZE_1B, h, h2]; omega

theorem VARSIZE_4B_big (PTR : Mem) :
    VARSIZE_4B .big PTR = va_header_4b .big PTR % 1073741824 := by
  simp only [VARSIZE_4B, and_0x3FFFFFFF]

theorem VARSIZE_4B_little (PTR : Mem) :
    VARSIZE_4B .little PTR = va_header_4b .little PTR / 4 := by
  have : va_header_4b .little PTR < 4294967296 := by
    have := load8_lt PTR 0; have := load8_lt PTR 1
    have := load8_lt PTR 2; have := load8_lt PTR 3
    simp only [va_header_4b, load32, Nat.zero_add]; omega
  simp only [VARSIZE_4B, and_0x3FFFFFFF, shiftRight_two]; omega

/-- The `uint8` at the lowest address is the low-order byte of the length word
on a little-endian machine. -/
theorem first_byte_little (PTR : Mem) :
    va_header_1b PTR = va_header_4b .little PTR % 256 := by
  have := load8_lt PTR 0
  simp only [va_header_1b, va_header_4b, load32, Nat.zero_add]; omega

/-- The `uint8` at the lowest address is the high-order byte of the length
word on a big-endian machine. -/
theorem first_byte_big (PTR : Mem) :
    va_header_1b PTR = va_header_4b .big PTR / 16777216 := by
  have := load8_lt PTR 0; have := load8_lt PTR 1
  have := load8_lt PTR 2; have := load8_lt PTR 3
  simp only [va_header_1b, va_header_4b, load32, Nat.zero_add]; omega

theorem word_SET_VARSIZE_4B_little (PTR : Mem) (len : Int) :
    va_header_4b .little (SET_VARSIZE_4B .little PTR len)
      = toUint32 len * 4 % 4294967296 := by
  simp only [SET_VARSIZE_4B, set_va_header_4b, va_header_4b, load32_store32, shiftLeft_two]
  omega

theorem word_SET_VARSIZE_4B_big (PTR : Mem) (len : Int) :
    va_header_4b .big (SET_VARSIZE_4B .big PTR len) = toUint32 len % 1073741824 := by
  have h := toUint32_land len 0x3FFFFFFF
  simp only [Nat.cast_ofNat, Nat.reduceMod, and_0x3FFFFFFF] at h
  simp only [SET_VARSIZE_4B, set_va_header_4b, va_header_4b, load32_store32, h]
  omega

theorem word_SET_VARSIZE_4B_C_little (PTR : Mem) (len : Int) :
    va_header_4b .little (SET_VARSIZE_4B_C .little PTR len)
      = toUint32 len * 4 % 4294967296 + 2 := by
  have h := or_two_of_mul_four (toUint32 len * 4 % 4294967296) (by omega)
  simp only [SET_VARSIZE_4B_C, set_va_header_4b, va_header_4b, load32_store32, shiftLeft_two, h]
  omega

theorem word_SET_VARSIZE_4B_C_big (PTR : Mem) (len : Int) :
    va_header_4b .big (SET_VARSIZE_4B_C .big PTR len)
      = toUint32 len % 1073741824 + 1073741824 := by
  have h := toUint32_land len 0x3FFFFFFF
  simp only [Nat.cast_ofNat, Nat.reduceMod, and_0x3FFFFFFF] at h
  have h1 := toUint32_lor (Int.land len 0x3FFFFFFF) 0x40000000
  have h2 := or_0x40000000 (toUint32 len % 1073741824) (by omega)
  simp only [Nat.cast_ofNat, Nat.reduceMod, h, h2] at h1
  simp only [SET_VARSIZE_4B_C, set_va_header_4b, va_header_4b, load32_store32, h1]
  omega


theorem header_SET_VARSIZE_1B_E (e : Endian) (PTR : Mem) (len : Int) :
    va_header_1b (SET_VARSIZE_1B_E e PTR len)
      = (match e with | .big => 128 | .little => 1) := by
  cases e <;>
    simp [SET_VARSIZE_1B_E, set_va_len_1be, set_va_header_1b, va_header_1b, load8, store8]

theorem va_len_1be_SET_VARSIZE_1B_E (e : Endian) (PTR : Mem) (len : Int) :
    va_len_1be (SET_VARSIZE_1B_E e PTR len) = toUint8 len := by
  have := toUint8_lt len
  cases e <;>
    simp [SET_VARSIZE_1B_E, set_va_len_1be, set_va_header_1b, va_len_1be, load8, store8] <;>
    omega

theorem toUint8_cast (x : Int) : ((toUint8 x : Nat) : Int) = x % 256 := by
  unfold toUint8; omega

theorem toUint32_cast (x : Int) : ((toUint32 x : Nat) : Int) = x % 4294967296 := by
  unfold toUint32; omega

/-! ### Frame lemmas and the size macros by kind -/

theorem load8_store32_zero_of_ge (e : Endian) (m : Mem) (v i : Nat) (h : 4 ≤ i) :
    load8 (store32 e m 0 v) i = load8 m i := by
  have h0 : i ≠ 0 := by omega
  have h1 : i ≠ 1 := by omega
  have h2 : i ≠ 2 := by omega
  have h3 : i ≠ 3 := by omega
  cases e <;> simp [load8, store8, store32, h0, h1, h2, h3]

theorem load8_store32_four_of_lt (e : Endian) (m : Mem) (v i : Nat) (h : i < 4) :
    load8 (store32 e m 4 v) i = load8 m i := by
  have h0 : i ≠ 4 := by omega
  have h1 : i ≠ 5 := by omega
  have h2 : i ≠ 6 := by omega
  have h3 : i ≠ 7 := by omega
  cases e <;> simp [load8, store8, store32, h0, h1, h2, h3]

theorem va_rawsize_set_va_header_4b (e e' : Endian) (PTR : Mem) (v : Nat) :
    va_rawsize e (set_va_header_4b e' PTR v) = va_rawsize e PTR := by
  have a4 := load8_store32_zero_of_ge e' PTR v 4 (by omega)
  have a5 := load8_store32_zero_of_ge e' PTR v 5 (by omega)
  have a6 := load8_store32_zero_of_ge e' PTR v 6 (by omega)
  have a7 := load8_store32_zero_of_ge e' PTR v 7 (by omega)
  cases e <;> simp only [va_rawsize, set_va_header_4b, load32, a4, a5, a6, a7]

theorem va_header_4b_set_va_rawsize (e e' : Endian) (PTR : Mem) (r : Nat) :
    va_header_4b e (set_va_rawsize e' PTR r) = va_header_4b e PTR := by
  have a0 := load8_store32_four_of_lt e' PTR r 0 (by omega)
  have a1 := load8_store32_four_of_lt e' PTR r 1 (by omega)
  have a2 := load8_store32_four_of_lt e' PTR r 2 (by omega)
  have a3 := load8_store32_four_of_lt e' PTR r 3 (by omega)
  cases e <;> simp only [va_header_4b, set_va_rawsize, load32, Nat.zero_add, a0, a1, a2, a3]

theorem va_header_1b_set_va_rawsize (e : Endian) (PTR : Mem) (r : Nat) :
    va_header_1b (set_va_rawsize e PTR r) = va_header_1b PTR :=
  load8_store32_four_of_lt e PTR r 0 (by omega)

theorem va_rawsize_set_va_rawsize (e : Endian) (PTR : Mem) (r : Nat) :
    va_rawsize e (set_va_rawsize e PTR r) = r % 4294967296 :=
  load32_store32 e PTR 4 r

theorem VARATT_IS_1B_E_imp_1B (e : Endian) (PTR : Mem)
    (h : VARATT_IS_1B_E e PTR = true) : VARATT_IS_1B e PTR = true := by
  cases e
  · rw [VARATT_IS_1B_E_big] at h; rw [VARATT_IS_1B_big]; omega
  · rw [VARATT_IS_1B_E_little] at h; rw [VARATT_IS_1B_little]; omega

theorem VARSIZE_ANY_of_4B (e : Endian) (PTR : Mem) (h : VARATT_IS_1B e PTR = false) :
    VARSIZE_ANY e PTR = VARSIZE_4B e PTR := by
  have hE : VARATT_IS_1B_E e PTR = false := by
    cases hx : VARATT_IS_1B_E e PTR
    · rfl
    · rw [VARATT_IS_1B_E_imp_1B e PTR hx] at h; cases h
  simp [VARSIZE_ANY, h, hE]

theorem VARSIZE_ANY_of_short (e : Endian) (PTR : Mem) (h : VARATT_IS_1B e PTR = true)
    (hE : VARATT_IS_1B_E e PTR = false) : VARSIZE_ANY e PTR = VARSIZE_1B e PTR := by
  simp [VARSIZE_ANY, h, hE]

theorem VARSIZE_ANY_of_external (e : Endian) (PTR : Mem)
    (hE : VARATT_IS_1B_E e PTR = true) : VARSIZE_ANY e PTR = VARSIZE_1B_E PTR := by
  simp [VARSIZE_ANY, hE]

theorem VARSIZE_ANY_EXHDR_of_4B (V : Int) (e : Endian) (PTR : Mem)
    (h : VARATT_IS_1B e PTR = false) :
    VARSIZE_ANY_EXHDR V e PTR = toUint32 ((VARSIZE_4B e PTR : Int) - V) := by
  have hE : VARATT_IS_1B_E e PTR = false := by
    cases hx : VARATT_IS_1B_E e PTR
    · rfl
    · rw [VARATT_IS_1B_E_imp_1B e PTR hx] at h; cases h
  simp [VARSIZE_ANY_EXHDR, h, hE]

theorem VARSIZE_ANY_EXHDR_of_short (V : Int) (e : Endian) (PTR : Mem)
    (h : VARATT_IS_1B e PTR = true) (hE : VARATT_IS_1B_E e PTR = false) :
    VARSIZE_ANY_EXHDR V e PTR
      = toUint32 ((VARSIZE_1B e PTR : Int) - (VARHDRSZ_SHORT : Int)) := by
  simp [VARSIZE_ANY_EXHDR, h, hE]

/-! ### What the encoders write, for every integer length -/

theorem VARSIZE_4B_SET_VARSIZE_4B (e : Endian) (PTR : Mem) (L : Int) :
    (VARSIZE_4B e (SET_VARSIZE_4B e PTR L) : Int) = L % 1073741824 := by
  have hc := toUint32_cast L
  have hl := toUint32_lt L
  cases e
  · simp only [VARSIZE_4B_big, word_SET_VARSIZE_4B_big]; omega
  · simp only [VARSIZE_4B_little, word_SET_VARSIZE_4B_little]; omega

theorem VARSIZE_4B_SET_VARSIZE_4B_C (e : Endian) (PTR : Mem) (L : Int) :
    (VARSIZE_4B e (SET_VARSIZE_4B_C e PTR L) : Int) = L % 1073741824 := by
  have hc := toUint32_cast L
  have hl := toUint32_lt L
  cases e
  · simp only [VARSIZE_4B_big, word_SET_VARSIZE_4B_C_big]; omega
  · simp only [VARSIZE_4B_little, word_SET_VARSIZE_4B_C_little]; omega

theorem kind_SET_VARSIZE_4B (e : Endian) (PTR : Mem) (L : Int) :
    VARATT_IS_4B e (SET_VARSIZE_4B e PTR L) = true ∧
    VARATT_IS_4B_U e (SET_VARSIZE_4B e PTR L) = true ∧
    VARATT_IS_4B_C e (SET_VARSIZE_4B e PTR L) = false ∧
    VARATT_IS_1B e (SET_VARSIZE_4B e PTR L) = false ∧
    VARATT_IS_1B_E e (SET_VARSIZE_4B e PTR L) = false := by
  have hl := toUint32_lt L
  cases e
  · simp only [← Bool.not_eq_true, VARATT_IS_4B_big, VARATT_IS_4B_U_big, VARATT_IS_4B_C_big,
      VARATT_IS_1B_big, VARATT_IS_1B_E_big, first_byte_big, word_SET_VARSIZE_4B_big]
    omega
  · simp only [← Bool.not_eq_true, VARATT_IS_4B_little, VARATT_IS_4B_U_little,
      VARATT_IS_4B_C_little, VARATT_IS_1B_little, VARATT_IS_1B_E_little, first_byte_little,
      word_SET_VARSIZE_4B_little]
    omega

theorem kind_SET_VARSIZE_4B_C (e : Endian) (PTR : Mem) (L : Int) :
    VARATT_IS_4B e (SET_VARSIZE_4B_C e PTR L) = true ∧
    VARATT_IS_4B_U e (SET_VARSIZE_4B_C e PTR L) = false ∧
    VARATT_IS_4B_C e (SET_VARSIZE_4B_C e PTR L) = true ∧
    VARATT_IS_1B e (SET_VARSIZE_4B_C e PTR L) = false ∧
    VARATT_IS_1B_E e (SET_VARSIZE_4B_C e PTR L) = false := by
  have hl := toUint32_lt L
  cases e
  · simp only [← Bool.not_eq_true, VARATT_IS_4B_big, VARATT_IS_4B_U_big, VARATT_IS_4B_C_big,
      VARATT_IS_1B_big, VARATT_IS_1B_E_big, first_byte_big, word_SET_VARSIZE_4B_C_big]
    omega
  · simp only [← Bool.not_eq_true, VARATT_IS_4B_little, VARATT_IS_4B_U_little,
      VARATT_IS_4B_C_little, VARATT_IS_1B_little, VARATT_IS_1B_E_little, first_byte_little,
      word_SET_VARSIZE_4B_C_little]
    omega

theorem VARSIZE_1B_SET_VARSIZE_1B (e : Endian) (PTR : Mem) (L : Int) :
    (VARSIZE_1B e (SET_VARSIZE_1B e PTR L) : Int) = L % 128 := by
  have hc := toUint8_cast L
  have hl := toUint8_lt L
  cases e
  · simp only [VARSIZE_1B_big, header_SET_VARSIZE_1B_big]; omega
  · simp only [VARSIZE_1B_little, header_SET_VARSIZE_1B_little]; omega

theorem kind_SET_VARSIZE_1B (e : Endian) (PTR : Mem) (L : Int) :
    VARATT_IS_4B e (SET_VARSIZE_1B e PTR L) = false ∧
    VARATT_IS_4B_U e (SET_VARSIZE_1B e PTR L) = false ∧
    VARATT_IS_4B_C e (SET_VARSIZE_1B e PTR L) = false ∧
    VARATT_IS_1B e (SET_VARSIZE_1B e PTR L) = true ∧
    (VARATT_IS_1B_E e (SET_VARSIZE_1B e PTR L) = true ↔ L % 128 = 0) := by
  have hc := toUint8_cast L
  have hl := toUint8_lt L
  cases e
  · simp only [← Bool.not_eq_true, VARATT_IS_4B_big, VARATT_IS_4B_U_big, VARATT_IS_4B_C_big,
      VARATT_IS_1B_big, VARATT_IS_1B_E_big, header_SET_VARSIZE_1B_big]
    omega
  · simp only [← Bool.not_eq_true, VARATT_IS_4B_little, VARATT_IS_4B_U_little,
      VARATT_IS_4B_C_little, VARATT_IS_1B_little, VARATT_IS_1B_E_little,
      header_SET_VARSIZE_1B_little]
    omega

theorem kind_SET_VARSIZE_1B_E (e : Endian) (PTR : Mem) (L : Int) :
    VARATT_IS_4B e (SET_VARSIZE_1B_E e PTR L) = false ∧
    VARATT_IS_4B_U e (SET_VARSIZE_1B_E e PTR L) = false ∧
    VARATT_IS_4B_C e (SET_VARSIZE_1B_E e PTR L) = false ∧
    VARATT_IS_1B e (SET_VARSIZE_1B_E e PTR L) = true ∧
    VARATT_IS_1B_E e (SET_VARSIZE_1B_E e PTR L) = true := by
  cases e
  · simp only [← Bool.not_eq_true, VARATT_IS_4B_big, VARATT_IS_4B_U_big, VARATT_IS_4B_C_big,
      VARATT_IS_1B_big, VARATT_IS_1B_E_big, header_SET_VARSIZE_1B_E]
    decide
  · simp only [← Bool.not_eq_true, VARATT_IS_4B_little, VARATT_IS_4B_U_little,
      VARATT_IS_4B_C_little, VARATT_IS_1B_little, VARATT_IS_1B_E_little,
      header_SET_VARSIZE_1B_E]
    decide

theorem kind_predicates_of_first_byte (e : Endian) (PTR PTR' : Mem)
    (h : va_header_1b PTR = va_header_1b PTR') :
    kind_predicates e PTR = kind_predicates e PTR' := by
  cases e <;>
    simp only [kind_predicates, VARATT_IS_4B, VARATT_IS_4B_U, VARATT_IS_4B_C, VARATT_IS_1B,
      VARATT_IS_1B_E, h]

theorem SET_VARSIZE_4B_C_eq_set (e : Endian) (PTR : Mem) (L : Int) :
    ∃ w, SET_VARSIZE_4B_C e PTR L = set_va_header_4b e PTR w := by
  cases e
  · exact ⟨_, rfl⟩
  · exact ⟨_, rfl⟩

/-! ### The compressed stream decodes to the input -/

theorem matchLength_spec (xs ys : List Nat) (k : Nat) (h : k < matchLength xs ys) :
    xs[k]? = ys[k]? ∧ k < ys.length := by
  induction xs generalizing ys k with
  | nil => simp [matchLength] at h
  | cons a as ih =>
    cases ys with
    | nil => simp [matchLength] at h
    | cons b bs =>
      simp only [matchLength] at h
      split at h
      · rename_i hab
        cases k with
        | zero => simp [hab]
        | succ k =>
          have := ih bs k (by omega)
          simp only [List.getElem?_cons_succ, List.length_cons]
          exact ⟨this.1, by omega⟩
      · omega

theorem matchLength_pos_of_key (raw : List Nat) (cand pos : Nat)
    (hlen : (keyAt raw pos).length = 4) (hkey : keyAt raw cand = keyAt raw pos) :
    1 ≤ matchLength (raw.drop cand) (raw.drop pos) := by
  unfold keyAt at hlen hkey
  cases hp : raw.drop pos with
  | nil => rw [hp] at hlen; simp at hlen
  | cons y ys =>
    cases hc : raw.drop cand with
    | nil => rw [hp, hc] at hkey; simp at hkey
    | cons x xs =>
      rw [hp, hc] at hkey
      simp only [List.take_succ_cons, List.cons.injEq] at hkey
      simp only [matchLength, hkey.1, if_true]
      omega

theorem mem_historyChain (raw : List Nat) (pos cand : Nat) (h : cand ∈ historyChain raw pos) :
    cand < pos ∧ 1 ≤ matchLength (raw.drop cand) (raw.drop pos) := by
  unfold historyChain at h
  split at h
  · rename_i hlen
    simp only [List.mem_filter, List.mem_reverse, List.mem_range, beq_iff_eq] at h
    exact ⟨h.1, matchLength_pos_of_key raw cand pos hlen h.2⟩
  · simp at h

theorem findMatch_spec (raw : List Nat) (pos : Nat) (drop : Int) (chain : List Nat)
    (good : Int) (offset length : Nat)
    (h : findMatch raw pos drop chain good = some (offset, length)) :
    ∃ cand, cand ∈ chain ∧ offset = pos - cand ∧
      length = matchLength (raw.drop cand) (raw.drop pos) := by
  induction chain generalizing good with
  | nil => simp [findMatch] at h
  | cons c rest ih =>
    simp only [findMatch] at h
    split at h
    · simp only [Option.some.injEq, Prod.mk.injEq] at h
      exact ⟨c, List.mem_cons_self _ _, h.1.symm, h.2.symm⟩
    · obtain ⟨cand, hm, ho, hl⟩ := ih _ h
      exact ⟨cand, List.mem_cons_of_mem _ hm, ho, hl⟩

theorem take_succ_of_getElem? (raw : List Nat) (c x : Nat) (h : raw[c]? = some x) :
    raw.take c ++ [x] = raw.take (c + 1) := by
  rw [List.take_succ, h]; rfl

theorem copyMatch_take (raw : List Nat) (offset length c : Nat)
    (h1 : 1 ≤ offset) (h2 : offset ≤ c)
    (H : ∀ k, k < length → raw[c - offset + k]? = raw[c + k]? ∧ c + k < raw.length) :
    copyMatch (raw.take c) offset length = raw.take (c + length) := by
  induction length generalizing c with
  | zero => simp [copyMatch]
  | succ n ih =>
    have h0 := H 0 (by omega)
    simp only [Nat.add_zero] at h0
    have hc : c < raw.length := h0.2
    have hlen : (raw.take c).length = c := by simp; omega
    have hget : (raw.take c).getD (c - offset) 0 = raw[c] := by
      rw [List.getD_eq_getElem?_getD, List.getElem?_take_of_lt (by omega), h0.1,
        List.getElem?_eq_getElem hc]; rfl
    simp only [copyMatch, hlen, hget]
    rw [take_succ_of_getElem? raw c raw[c] (List.getElem?_eq_getElem hc)]
    rw [ih (c + 1) (by omega)]
    · congr 1; omega
    · intro k hk
      have := H (k + 1) (by omega)
      have e1 : c + 1 - offset + k = c - offset + (k + 1) := by omega
      have e2 : c + 1 + k = c + (k + 1) := by omega
      rw [e1, e2]; exact this


theorem compressLoop_decodes (cost : Token → Nat) (raw : List Nat) (strategy : PGLZ_Strategy)
    (remaining : Nat) :
    ∀ (pos skip : Nat) (found : Bool) (outBytes : Nat) (stream : List Token),
      pos + remaining = raw.length → skip ≤ remaining →
      compressLoop cost raw strategy remaining pos skip found outBytes = some stream →
      decompressLoop raw.length stream (raw.take (pos + skip)) = some raw := by
  induction remaining with
  | zero =>
    intro pos skip found outBytes stream hpos hskip h
    simp only [compressLoop, Option.some.injEq] at h
    subst h
    have hs : skip = 0 := by omega
    subst hs
    simp only [Nat.add_zero] at hpos ⊢
    rw [hpos, List.take_length]
    simp [decompressLoop]
  | succ r ih =>
    intro pos skip found outBytes stream hpos hskip h
    have hlt : pos < raw.length := by omega
    have hlen : (raw.take pos).length = pos := by simp; omega
    cases skip with
    | succ s =>
      simp only [compressLoop] at h
      have := ih (pos + 1) s found outBytes stream (by omega) (by omega) h
      have e : pos + (s + 1) = pos + 1 + s := by omega
      rw [e]; exact this
    | zero =>
      simp only [compressLoop] at h
      split at h
      · cases h
      · split at h
        · cases h
        · split at h
          · rename_i offset length hfind
            obtain ⟨rest, hrest, hstream⟩ := Option.map_eq_some'.mp h
            subst hstream
            obtain ⟨cand, hmem, hoff, hl⟩ := findMatch_spec raw pos _ _ _ offset length hfind
            obtain ⟨hcand, hpos1⟩ := mem_historyChain raw pos cand hmem
            have hspec : ∀ k, k < length →
                raw[pos - offset + k]? = raw[pos + k]? ∧ pos + k < raw.length := by
              intro k hk
              have := matchLength_spec (raw.drop cand) (raw.drop pos) k (by omega)
              simp only [List.getElem?_drop, List.length_drop] at this
              have e : pos - offset + k = cand + k := by omega
              rw [e]; exact ⟨this.1, by omega⟩
            have hend := (hspec (length - 1) (by omega)).2
            have hih := ih (pos + 1) (length - 1) true _ rest (by omega) (by omega) hrest
            have e : pos + 1 + (length - 1) = pos + length := by omega
            rw [e] at hih
            have hno : ¬ (offset = 0 ∨ pos < offset ∨ raw.length < pos + length) := by omega
            simp only [Nat.add_zero, decompressLoop, hlen, hno, if_false]
            rw [copyMatch_take raw offset length pos (by omega) (by omega) hspec]
            exact hih
          · obtain ⟨rest, hrest, hstream⟩ := Option.map_eq_some'.mp h
            subst hstream
            have hih := ih (pos + 1) 0 found _ rest (by omega) (by omega) hrest
            have hno : ¬ (raw.length < pos + 1) := by omega
            have hget : raw.getD pos 0 = raw[pos] := by
              rw [List.getD_eq_getElem?_getD, List.getElem?_eq_getElem hlt]; rfl
            simp only [Nat.add_zero, decompressLoop, hlen, hno, if_false, hget] at hih ⊢
            rw [take_succ_of_getElem? raw pos raw[pos] (List.getElem?_eq_getElem hlt)]
            exact hih

/-! ## Claims -/

/-- C1: at length 0 the byte written by `SET_VARSIZE_1B` is the
external-record marker, so `VARATT_IS_1B_E` holds on it in both families. -/
theorem short_header_zero_is_external :
    VARATT_IS_1B_E .little (SET_VARSIZE_1B .little zeroMem 0) = true ∧
    VARATT_IS_1B_E .big (SET_VARSIZE_1B .big zeroMem 0) = true := by
  decide

/-- C1 (amended): for `0 ≤ L ≤ 127`, in both families, the byte written by
`SET_VARSIZE_1B(L)` satisfies `VARATT_IS_1B`, `VARSIZE_1B` of it is `L`, and
`VARATT_IS_1B_E` holds on it exactly when `L = 0`; hence for `1 ≤ L ≤ 127` it
decodes to kind Short1 and length `L`. -/
theorem short_header_roundtrip (e : Endian) (PTR : Mem) (L : Int)
    (h0 : 0 ≤ L) (h1 : L ≤ 127) :
    VARATT_IS_1B e (SET_VARSIZE_1B e PTR L) = true ∧
    (VARSIZE_1B e (SET_VARSIZE_1B e PTR L) : Int) = L ∧
    (VARATT_IS_1B_E e (SET_VARSIZE_1B e PTR L) = true ↔ L = 0) := by
  obtain ⟨n, rfl⟩ := Int.eq_ofNat_of_zero_le h0
  have hn : n ≤ 127 := by omega
  have hu : toUint8 (n : Int) = n := by rw [toUint8_ofNat]; omega
  cases e
  · simp only [VARATT_IS_1B_big, VARATT_IS_1B_E_big, VARSIZE_1B_big,
      header_SET_VARSIZE_1B_big, hu]
    omega
  · simp only [VARATT_IS_1B_little, VARATT_IS_1B_E_little, VARSIZE_1B_little,
      header_SET_VARSIZE_1B_little, hu]
    omega

/-- The Short1 round trip at length 5 on a little-endian machine. -/
theorem short_header_roundtrip_witness :
    (0 : Int) ≤ 5 ∧ (5 : Int) ≤ 127 ∧
    VARATT_IS_1B .little (SET_VARSIZE_1B .little zeroMem 5) = true ∧
    (VARSIZE_1B .little (SET_VARSIZE_1B .little zeroMem 5) : Int) = 5 ∧
    (VARATT_IS_1B_E .little (SET_VARSIZE_1B .little zeroMem 5) = true ↔ (5 : Int) = 0) :=
  ⟨by decide, by decide, short_header_roundtrip .little zeroMem 5 (by decide) (by decide)⟩

/-- C2: for `0 ≤ L ≤ 2^30-1`, in both families, `VARSIZE_4B` of the header
written by `SET_VARSIZE_4B(L)` is `L` and its first byte satisfies
`VARATT_IS_4B_U`; `VARSIZE_4B` of the header written by `SET_VARSIZE_4B_C(L)`
is `L` and its first byte satisfies `VARATT_IS_4B_C` (`VARATT_IS_COMPRESSED`).
The first byte is the low-order byte of the length word on a little-endian
machine and its high-order byte on a big-endian one. -/
theorem header_4B_roundtrip (e : Endian) (PTR : Mem) (L : Int)
    (h0 : 0 ≤ L) (h1 : L ≤ 1073741823) :
    (VARSIZE_4B e (SET_VARSIZE_4B e PTR L) : Int) = L ∧
    VARATT_IS_4B_U e (SET_VARSIZE_4B e PTR L) = true ∧
    (VARSIZE_4B e (SET_VARSIZE_4B_C e PTR L) : Int) = L ∧
    VARATT_IS_4B_C e (SET_VARSIZE_4B_C e PTR L) = true ∧
    VARATT_IS_COMPRESSED e (SET_VARSIZE_4B_C e PTR L) = true ∧
    va_header_1b (SET_VARSIZE_4B e PTR L)
      = (match e with
         | .big => va_header_4b .big (SET_VARSIZE_4B .big PTR L) / 16777216
         | .little => va_header_4b .little (SET_VARSIZE_4B .little PTR L) % 256) ∧
    va_header_1b (SET_VARSIZE_4B_C e PTR L)
      = (match e with
         | .big => va_header_4b .big (SET_VARSIZE_4B_C .big PTR L) / 16777216
         | .little => va_header_4b .little (SET_VARSIZE_4B_C .little PTR L) % 256) := by
  obtain ⟨n, rfl⟩ := Int.eq_ofNat_of_zero_le h0
  have hn : n ≤ 1073741823 := by omega
  have hu : toUint32 (n : Int) = n := by rw [toUint32_ofNat]; omega
  cases e
  · simp only [VARATT_IS_COMPRESSED, VARSIZE_4B_big, VARATT_IS_4B_U_big, VARATT_IS_4B_C_big,
      first_byte_big, word_SET_VARSIZE_4B_big, word_SET_VARSIZE_4B_C_big, hu, and_true]
    omega
  · simp only [VARATT_IS_COMPRESSED, VARSIZE_4B_little, VARATT_IS_4B_U_little,
      VARATT_IS_4B_C_little, first_byte_little, word_SET_VARSIZE_4B_little,
      word_SET_VARSIZE_4B_C_little, hu, and_true]
    omega

/-- The 4-byte round trip at length 1000 on a big-endian machine. -/
theorem header_4B_roundtrip_witness :
    (0 : Int) ≤ 1000 ∧ (1000 : Int) ≤ 1073741823 ∧
    (VARSIZE_4B .big (SET_VARSIZE_4B .big zeroMem 1000) : Int) = 1000 ∧
    VARATT_IS_4B_U .big (SET_VARSIZE_4B .big zeroMem 1000) = true ∧
    (VARSIZE_4B .big (SET_VARSIZE_4B_C .big zeroMem 1000) : Int) = 1000 ∧
    VARATT_IS_4B_C .big (SET_VARSIZE_4B_C .big zeroMem 1000) = true :=
  have h := header_4B_roundtrip .big zeroMem 1000 (by decide) (by decide)
  ⟨by decide, by decide, h.1, h.2.1, h.2.2.1, h.2.2.2.1⟩

/-- C3: for `0 ≤ L ≤ 2^30-1`, in both families, the first byte of the header
written by `SET_VARSIZE_4B(L)` or by `SET_VARSIZE_4B_C(L)` satisfies
`VARATT_IS_4B` and neither `VARATT_IS_1B` nor `VARATT_IS_1B_E`; and for
`1 ≤ L ≤ 127` the header written by `SET_VARSIZE_1B(L)` is classified
differently from the one written by `SET_VARSIZE_4B(L)`: the former satisfies
`VARATT_IS_1B` and neither `VARATT_IS_1B_E`, `VARATT_IS_4B` nor
`VARATT_IS_4B_U`, the latter satisfies `VARATT_IS_4B_U`. -/
theorem header_4B_never_1B (e : Endian) (PTR : Mem) (L : Int)
    (h0 : 0 ≤ L) (h1 : L ≤ 1073741823) :
    (VARATT_IS_4B e (SET_VARSIZE_4B e PTR L) = true ∧
     VARATT_IS_1B e (SET_VARSIZE_4B e PTR L) = false ∧
     VARATT_IS_1B_E e (SET_VARSIZE_4B e PTR L) = false) ∧
    (VARATT_IS_4B e (SET_VARSIZE_4B_C e PTR L) = true ∧
     VARATT_IS_1B e (SET_VARSIZE_4B_C e PTR L) = false ∧
     VARATT_IS_1B_E e (SET_VARSIZE_4B_C e PTR L) = false) ∧
    (1 ≤ L → L ≤ 127 →
      VARATT_IS_1B e (SET_VARSIZE_1B e PTR L) = true ∧
      VARATT_IS_1B_E e (SET_VARSIZE_1B e PTR L) = false ∧
      VARATT_IS_4B e (SET_VARSIZE_1B e PTR L) = false ∧
      VARATT_IS_4B_U e (SET_VARSIZE_1B e PTR L) = false ∧
      VARATT_IS_4B_U e (SET_VARSIZE_4B e PTR L) = true) := by
  obtain ⟨n, rfl⟩ := Int.eq_ofNat_of_zero_le h0
  have hn : n ≤ 1073741823 := by omega
  have hu : toUint32 (n : Int) = n := by rw [toUint32_ofNat]; omega
  have hv := toUint8_ofNat n
  cases e
  · have b1 := first_byte_big (SET_VARSIZE_4B .big PTR n)
    have b2 := first_byte_big (SET_VARSIZE_4B_C .big PTR n)
    rw [word_SET_VARSIZE_4B_big, hu] at b1
    rw [word_SET_VARSIZE_4B_C_big, hu] at b2
    simp only [← Bool.not_eq_true, VARATT_IS_4B_big, VARATT_IS_1B_big, VARATT_IS_1B_E_big,
      VARATT_IS_4B_U_big, header_SET_VARSIZE_1B_big, b1, b2, hv]
    omega
  · have b1 := first_byte_little (SET_VARSIZE_4B .little PTR n)
    have b2 := first_byte_little (SET_VARSIZE_4B_C .little PTR n)
    rw [word_SET_VARSIZE_4B_little, hu] at b1
    rw [word_SET_VARSIZE_4B_C_little, hu] at b2
    simp only [← Bool.not_eq_true, VARATT_IS_4B_little, VARATT_IS_1B_little,
      VARATT_IS_1B_E_little, VARATT_IS_4B_U_little, header_SET_VARSIZE_1B_little, b1, b2, hv]
    omega

/-- Length 5 written as a 4-byte header and as a Short1 header, little-endian. -/
theorem header_4B_never_1B_witness :
    (0 : Int) ≤ 5 ∧ (5 : Int) ≤ 1073741823 ∧
    VARATT_IS_1B .little (SET_VARSIZE_4B .little zeroMem 5) = false ∧
    VARATT_IS_1B_E .little (SET_VARSIZE_4B .little zeroMem 5) = false ∧
    VARATT_IS_1B .little (SET_VARSIZE_1B .little zeroMem 5) = true ∧
    VARATT_IS_4B_U .little (SET_VARSIZE_1B .little zeroMem 5) = false ∧
    VARATT_IS_4B_U .little (SET_VARSIZE_4B .little zeroMem 5) = true :=
  have h := header_4B_never_1B .little zeroMem 5 (by decide) (by decide)
  have k := h.2.2 (by decide) (by decide)
  ⟨by decide, by decide, h.1.2.1, h.1.2.2, k.1, k.2.2.2.1, k.2.2.2.2⟩

/-- C4: the header written by `SET_VARSIZE_4B(64)` has a zero first byte in
both families, so `VARATT_NOT_PAD_BYTE` is false on it. -/
theorem uncompressed_header_zero_first_byte :
    VARATT_NOT_PAD_BYTE (SET_VARSIZE_4B .little zeroMem 64) = false ∧
    VARATT_NOT_PAD_BYTE (SET_VARSIZE_4B .big zeroMem 64) = false := by
  decide

/-- C4 (amended): in both families `VARATT_NOT_PAD_BYTE` holds on the header
written by `SET_VARSIZE_4B_C(L)` for `0 ≤ L ≤ 2^30-1`, by `SET_VARSIZE_1B(L)`
for `0 ≤ L ≤ 127` and by `SET_VARSIZE_1B_E(L)` for `0 ≤ L ≤ 255`; on the header
written by `SET_VARSIZE_4B(L)`, `0 ≤ L ≤ 2^30-1`, it holds exactly when `L` is
not a multiple of 64 (little-endian) or `L ≥ 2^24` (big-endian). -/
theorem encoders_first_byte (e : Endian) (PTR : Mem) (L : Int)
    (h0 : 0 ≤ L) (h1 : L ≤ 1073741823) :
    VARATT_NOT_PAD_BYTE (SET_VARSIZE_4B_C e PTR L) = true ∧
    (L ≤ 127 → VARATT_NOT_PAD_BYTE (SET_VARSIZE_1B e PTR L) = true) ∧
    (L ≤ 255 → VARATT_NOT_PAD_BYTE (SET_VARSIZE_1B_E e PTR L) = true) ∧
    (VARATT_NOT_PAD_BYTE (SET_VARSIZE_4B e PTR L) = true ↔
      (match e with
       | .big => 16777216 ≤ L
       | .little => L % 64 ≠ 0)) := by
  obtain ⟨n, rfl⟩ := Int.eq_ofNat_of_zero_le h0
  have hn : n ≤ 1073741823 := by omega
  have hu : toUint32 (n : Int) = n := by rw [toUint32_ofNat]; omega
  have hv := toUint8_ofNat n
  cases e
  · have b1 := first_byte_big (SET_VARSIZE_4B .big PTR n)
    have b2 := first_byte_big (SET_VARSIZE_4B_C .big PTR n)
    rw [word_SET_VARSIZE_4B_big, hu] at b1
    rw [word_SET_VARSIZE_4B_C_big, hu] at b2
    simp only [VARATT_NOT_PAD_BYTE_iff, header_SET_VARSIZE_1B_big, header_SET_VARSIZE_1B_E,
      b1, b2, hv]
    omega
  · have b1 := first_byte_little (SET_VARSIZE_4B .little PTR n)
    have b2 := first_byte_little (SET_VARSIZE_4B_C .little PTR n)
    rw [word_SET_VARSIZE_4B_little, hu] at b1
    rw [word_SET_VARSIZE_4B_C_little, hu] at b2
    simp only [VARATT_NOT_PAD_BYTE_iff, header_SET_VARSIZE_1B_little, header_SET_VARSIZE_1B_E,
      b1, b2, hv]
    omega

/-- The first bytes written for length 100 on a little-endian machine. -/
theorem encoders_first_byte_witness :
    (0 : Int) ≤ 100 ∧ (100 : Int) ≤ 1073741823 ∧
    VARATT_NOT_PAD_BYTE (SET_VARSIZE_4B_C .little zeroMem 100) = true ∧
    VARATT_NOT_PAD_BYTE (SET_VARSIZE_1B .little zeroMem 100) = true ∧
    VARATT_NOT_PAD_BYTE (SET_VARSIZE_1B_E .little zeroMem 100) = true ∧
    VARATT_NOT_PAD_BYTE (SET_VARSIZE_4B .little zeroMem 100) = true :=
  have h := encoders_first_byte .little zeroMem 100 (by decide) (by decide)
  ⟨by decide, by decide, h.1, h.2.1 (by decide), h.2.2.1 (by decide),
    h.2.2.2.mpr (by decide)⟩

/-- C5: for every integer `L`, in both families, the header byte written by
`SET_VARSIZE_1B(L)` and the one written by `SET_VARSIZE_1B_E(L)` are not zero:
`VARATT_NOT_PAD_BYTE` holds on every Short1 and External1 header. -/
theorem one_byte_header_never_zero (e : Endian) (PTR : Mem) (L : Int) :
    va_header_1b (SET_VARSIZE_1B e PTR L) ≠ 0 ∧
    va_header_1b (SET_VARSIZE_1B_E e PTR L) ≠ 0 ∧
    VARATT_NOT_PAD_BYTE (SET_VARSIZE_1B e PTR L) = true ∧
    VARATT_NOT_PAD_BYTE (SET_VARSIZE_1B_E e PTR L) = true := by
  have := toUint8_lt L
  cases e
  · simp only [VARATT_NOT_PAD_BYTE_iff, header_SET_VARSIZE_1B_big, header_SET_VARSIZE_1B_E]
    omega
  · simp only [VARATT_NOT_PAD_BYTE_iff, header_SET_VARSIZE_1B_little, header_SET_VARSIZE_1B_E]
    omega

/-- C6: at `L = 2^30` both 4-byte encoders, in both families, write a header
whose `VARSIZE_4B` is 0, not `L`. -/
theorem header_4B_overflow_wraps :
    VARSIZE_4B .little (SET_VARSIZE_4B .little zeroMem 1073741824) = 0 ∧
    VARSIZE_4B .big (SET_VARSIZE_4B .big zeroMem 1073741824) = 0 ∧
    VARSIZE_4B .little (SET_VARSIZE_4B_C .little zeroMem 1073741824) = 0 ∧
    VARSIZE_4B .big (SET_VARSIZE_4B_C .big zeroMem 1073741824) = 0 := by
  decide

/-- C6 (amended): the 4-byte encoders have no failure path; for every integer
`L`, in both families, `SET_VARSIZE_4B(L)` and `SET_VARSIZE_4B_C(L)` write a
header of their kind whose `VARSIZE_4B` is `L mod 2^30`, which equals `L`
exactly when `0 ≤ L ≤ 2^30-1`. -/
theorem header_4B_keeps_low_30_bits (e : Endian) (PTR : Mem) (L : Int) :
    (VARSIZE_4B e (SET_VARSIZE_4B e PTR L) : Int) = L % 1073741824 ∧
    (VARSIZE_4B e (SET_VARSIZE_4B_C e PTR L) : Int) = L % 1073741824 ∧
    VARATT_IS_4B_U e (SET_VARSIZE_4B e PTR L) = true ∧
    VARATT_IS_4B_C e (SET_VARSIZE_4B_C e PTR L) = true ∧
    ((VARSIZE_4B e (SET_VARSIZE_4B e PTR L) : Int) = L ↔ 0 ≤ L ∧ L ≤ 1073741823) ∧
    ((VARSIZE_4B e (SET_VARSIZE_4B_C e PTR L) : Int) = L ↔ 0 ≤ L ∧ L ≤ 1073741823) := by
  have hc := toUint32_cast L
  have hl := toUint32_lt L
  cases e
  · simp only [VARSIZE_4B_big, VARATT_IS_4B_U_big, VARATT_IS_4B_C_big, first_byte_big,
      word_SET_VARSIZE_4B_big, word_SET_VARSIZE_4B_C_big]
    omega
  · simp only [VARSIZE_4B_little, VARATT_IS_4B_U_little, VARATT_IS_4B_C_little,
      first_byte_little, word_SET_VARSIZE_4B_little, word_SET_VARSIZE_4B_C_little]
    omega

/-- C7: at `L = 200` the Short1 encoder writes a header byte in both families
(0x91 little-endian, 0xC8 big-endian) whose `VARSIZE_1B` is 72, not 200. -/
theorem short_header_overflow_wraps :
    va_header_1b (SET_VARSIZE_1B .little zeroMem 200) = 0x91 ∧
    VARSIZE_1B .little (SET_VARSIZE_1B .little zeroMem 200) = 72 ∧
    va_header_1b (SET_VARSIZE_1B .big zeroMem 200) = 0xC8 ∧
    VARSIZE_1B .big (SET_VARSIZE_1B .big zeroMem 200) = 72 := by
  decide

/-- C7 (amended): the Short1 encoder has no failure path; for every integer
`L`, in both families, `SET_VARSIZE_1B(L)` writes a header byte on which
`VARATT_IS_1B` holds and whose `VARSIZE_1B` is `L mod 128`, which equals `L`
exactly when `0 ≤ L ≤ 127`. -/
theorem short_header_keeps_low_7_bits (e : Endian) (PTR : Mem) (L : Int) :
    VARATT_IS_1B e (SET_VARSIZE_1B e PTR L) = true ∧
    (VARSIZE_1B e (SET_VARSIZE_1B e PTR L) : Int) = L % 128 ∧
    ((VARSIZE_1B e (SET_VARSIZE_1B e PTR L) : Int) = L ↔ 0 ≤ L ∧ L ≤ 127) := by
  have hc := toUint8_cast L
  have hl := toUint8_lt L
  cases e
  · simp only [VARSIZE_1B_big, VARATT_IS_1B_big, header_SET_VARSIZE_1B_big]
    omega
  · simp only [VARSIZE_1B_little, VARATT_IS_1B_little, header_SET_VARSIZE_1B_little]
    omega

/-- C8: a zero first byte satisfies `VARATT_IS_4B_U` in both families. -/
theorem zero_byte_is_4B_U :
    va_header_1b zeroMem = 0 ∧
    VARATT_IS_4B_U .little zeroMem = true ∧
    VARATT_IS_4B_U .big zeroMem = true := by
  decide

/-- C8 (amended): on a first byte 0x00, in both families,
`VARATT_NOT_PAD_BYTE` is false and none of `VARATT_IS_4B_C`, `VARATT_IS_1B`,
`VARATT_IS_1B_E` holds, while `VARATT_IS_4B_U` (and `VARATT_IS_4B`) holds: the
padding byte is told apart by `VARATT_NOT_PAD_BYTE` only. -/
theorem zero_byte_classification (e : Endian) (PTR : Mem) (h : va_header_1b PTR = 0) :
    VARATT_NOT_PAD_BYTE PTR = false ∧
    VARATT_IS_4B_C e PTR = false ∧
    VARATT_IS_1B e PTR = false ∧
    VARATT_IS_1B_E e PTR = false ∧
    VARATT_IS_4B_U e PTR = true ∧
    VARATT_IS_4B e PTR = true := by
  cases e
  · simp only [← Bool.not_eq_true, VARATT_NOT_PAD_BYTE_iff, VARATT_IS_4B_C_big,
      VARATT_IS_1B_big, VARATT_IS_1B_E_big, VARATT_IS_4B_U_big, VARATT_IS_4B_big, h]
    decide
  · simp only [← Bool.not_eq_true, VARATT_NOT_PAD_BYTE_iff, VARATT_IS_4B_C_little,
      VARATT_IS_1B_little, VARATT_IS_1B_E_little, VARATT_IS_4B_U_little,
      VARATT_IS_4B_little, h]
    decide

/-- The classification of an all-zero memory on a big-endian machine. -/
theorem zero_byte_classification_witness :
    va_header_1b zeroMem = 0 ∧
    VARATT_NOT_PAD_BYTE zeroMem = false ∧
    VARATT_IS_4B_C .big zeroMem = false ∧
    VARATT_IS_1B .big zeroMem = false ∧
    VARATT_IS_1B_E .big zeroMem = false ∧
    VARATT_IS_4B_U .big zeroMem = true ∧
    VARATT_IS_4B .big zeroMem = true :=
  ⟨by decide, zero_byte_classification .big zeroMem (by decide)⟩

/-- C9: for `0 ≤ L ≤ 255`, in both families, on the two header bytes written
by `SET_VARSIZE_EXTERNAL(L)` (`SET_VARSIZE_1B_E`) `VARATT_IS_EXTERNAL`
(`VARATT_IS_1B_E`) holds, `VARSIZE_EXTERNAL` returns `L`, read from the second
byte, and `VARSIZE_ANY` returns `L`. -/
theorem external_header_roundtrip (e : Endian) (PTR : Mem) (L : Int)
    (h0 : 0 ≤ L) (h1 : L ≤ 255) :
    VARATT_IS_EXTERNAL e (SET_VARSIZE_EXTERNAL e PTR L) = true ∧
    VARATT_IS_1B_E e (SET_VARSIZE_1B_E e PTR L) = true ∧
    (VARSIZE_EXTERNAL (SET_VARSIZE_EXTERNAL e PTR L) : Int) = L ∧
    (load8 (SET_VARSIZE_EXTERNAL e PTR L) 1 : Int) = L ∧
    (VARSIZE_ANY e (SET_VARSIZE_EXTERNAL e PTR L) : Int) = L := by
  have hE : VARATT_IS_1B_E e (SET_VARSIZE_1B_E e PTR L) = true := by
    cases e
    · simp only [VARATT_IS_1B_E_big, header_SET_VARSIZE_1B_E]
    · simp only [VARATT_IS_1B_E_little, header_SET_VARSIZE_1B_E]
  have hlen : (va_len_1be (SET_VARSIZE_1B_E e PTR L) : Int) = L := by
    rw [va_len_1be_SET_VARSIZE_1B_E, toUint8_cast]; omega
  refine ⟨hE, hE, hlen, hlen, ?_⟩
  simp only [VARSIZE_ANY, SET_VARSIZE_EXTERNAL, hE, if_true, VARSIZE_1B_E]
  exact hlen

/-- The External1 round trip at length 18 on a little-endian machine. -/
theorem external_header_roundtrip_witness :
    (0 : Int) ≤ 18 ∧ (18 : Int) ≤ 255 ∧
    VARATT_IS_EXTERNAL .little (SET_VARSIZE_EXTERNAL .little zeroMem 18) = true ∧
    VARATT_IS_1B_E .little (SET_VARSIZE_1B_E .little zeroMem 18) = true ∧
    (VARSIZE_EXTERNAL (SET_VARSIZE_EXTERNAL .little zeroMem 18) : Int) = 18 ∧
    (load8 (SET_VARSIZE_EXTERNAL .little zeroMem 18) 1 : Int) = 18 ∧
    (VARSIZE_ANY .little (SET_VARSIZE_EXTERNAL .little zeroMem 18) : Int) = 18 :=
  ⟨by decide, by decide, external_header_roundtrip .little zeroMem 18 (by decide) (by decide)⟩

/-- C10: for every first byte, in both families, `VARATT_IS_1B_E` holds if and
only if `VARATT_IS_1B` holds and `VARSIZE_1B` is 0; in particular on the header
written by `SET_VARSIZE_1B_E` `VARATT_IS_1B` is true and `VARSIZE_1B` returns 0. -/
theorem external_is_zero_length_short (e : Endian) (PTR : Mem) (L : Int) :
    (VARATT_IS_1B_E e PTR = true ↔ VARATT_IS_1B e PTR = true ∧ VARSIZE_1B e PTR = 0) ∧
    VARATT_IS_1B e (SET_VARSIZE_1B_E e PTR L) = true ∧
    VARSIZE_1B e (SET_VARSIZE_1B_E e PTR L) = 0 := by
  have hb := va_header_1b_lt PTR
  cases e
  · refine ⟨?_, ?_, ?_⟩
    all_goals simp only [VARATT_IS_1B_E_big, VARATT_IS_1B_big, VARSIZE_1B_big,
      header_SET_VARSIZE_1B_E]
    all_goals omega
  · refine ⟨?_, ?_, ?_⟩
    all_goals simp only [VARATT_IS_1B_E_little, VARATT_IS_1B_little, VARSIZE_1B_little,
      header_SET_VARSIZE_1B_E]
    all_goals omega

/-- C13: for every first byte, in both families, exactly one of
`VARATT_IS_4B_U`, `VARATT_IS_4B_C`, `VARATT_IS_1B` holds; `VARATT_IS_4B` is
equivalent to the negation of `VARATT_IS_1B` and to `VARATT_IS_4B_U` or
`VARATT_IS_4B_C`; `VARATT_IS_1B_E` implies `VARATT_IS_1B`; `VARATT_IS_EXTENDED`
is equivalent to the negation of `VARATT_IS_4B_U`; hence exactly one of the
four kinds Uncompressed4, Compressed4, External1 and Short1 (`VARATT_IS_1B` and
not `VARATT_IS_1B_E`) applies. -/
theorem kind_partition (e : Endian) (PTR : Mem) :
    ((VARATT_IS_4B_U e PTR = true ∧ VARATT_IS_4B_C e PTR = false ∧
        VARATT_IS_1B e PTR = false) ∨
      (VARATT_IS_4B_U e PTR = false ∧ VARATT_IS_4B_C e PTR = true ∧
        VARATT_IS_1B e PTR = false) ∨
      (VARATT_IS_4B_U e PTR = false ∧ VARATT_IS_4B_C e PTR = false ∧
        VARATT_IS_1B e PTR = true)) ∧
    (VARATT_IS_4B e PTR = true ↔ VARATT_IS_1B e PTR = false) ∧
    (VARATT_IS_4B e PTR = true ↔
      (VARATT_IS_4B_U e PTR = true ∨ VARATT_IS_4B_C e PTR = true)) ∧
    (VARATT_IS_1B_E e PTR = true → VARATT_IS_1B e PTR = true) ∧
    (VARATT_IS_EXTENDED e PTR = true ↔ VARATT_IS_4B_U e PTR = false) ∧
    ((VARATT_IS_4B_U e PTR = true ∧ VARATT_IS_COMPRESSED e PTR = false ∧
        VARATT_IS_EXTERNAL e PTR = false ∧ VARATT_IS_SHORT e PTR = false) ∨
      (VARATT_IS_4B_U e PTR = false ∧ VARATT_IS_COMPRESSED e PTR = true ∧
        VARATT_IS_EXTERNAL e PTR = false ∧ VARATT_IS_SHORT e PTR = false) ∨
      (VARATT_IS_4B_U e PTR = false ∧ VARATT_IS_COMPRESSED e PTR = false ∧
        VARATT_IS_EXTERNAL e PTR = true ∧ VARATT_IS_SHORT e PTR = true) ∨
      (VARATT_IS_4B_U e PTR = false ∧ VARATT_IS_COMPRESSED e PTR = false ∧
        VARATT_IS_EXTERNAL e PTR = false ∧ VARATT_IS_SHORT e PTR = true)) := by
  have hb := va_header_1b_lt PTR
  cases e
  · simp only [VARATT_IS_EXTENDED, VARATT_IS_COMPRESSED, VARATT_IS_EXTERNAL, VARATT_IS_SHORT,
      Bool.not_eq_true', ← Bool.not_eq_true, VARATT_IS_4B_big, VARATT_IS_4B_U_big,
      VARATT_IS_4B_C_big, VARATT_IS_1B_big, VARATT_IS_1B_E_big, true_and]
    omega
  · simp only [VARATT_IS_EXTENDED, VARATT_IS_COMPRESSED, VARATT_IS_EXTERNAL, VARATT_IS_SHORT,
      Bool.not_eq_true', ← Bool.not_eq_true, VARATT_IS_4B_little, VARATT_IS_4B_U_little,
      VARATT_IS_4B_C_little, VARATT_IS_1B_little, VARATT_IS_1B_E_little, true_and]
    omega

/-- C14: with `VARHDRSZ = 4`, for the header written by `SET_VARSIZE(s)`,
`4 ≤ s ≤ 2^30-1`, in both families, `VARATT_CAN_MAKE_SHORT` holds if and only
if `s - 4 + 1 ≤ 127`; and when it holds, `VARATT_CONVERTED_SHORT_SIZE` is
`s - 3`, which lies in `1..127`, the byte written by `SET_VARSIZE_SHORT(s - 3)`
satisfies `VARATT_IS_1B` and not `VARATT_IS_1B_E`, and `VARSIZE_ANY_EXHDR` of
the short header equals `VARSIZE_ANY_EXHDR` of the 4-byte header, `s - 4`. -/
theorem can_make_short (e : Endian) (PTR PTR' : Mem) (s : Int)
    (h0 : 4 ≤ s) (h1 : s ≤ 1073741823) :
    (VARATT_CAN_MAKE_SHORT 4 e (SET_VARSIZE e PTR s) = true ↔ s - 4 + 1 ≤ 127) ∧
    (VARATT_CAN_MAKE_SHORT 4 e (SET_VARSIZE e PTR s) = true →
      (VARATT_CONVERTED_SHORT_SIZE 4 e (SET_VARSIZE e PTR s) : Int) = s - 3 ∧
      1 ≤ s - 3 ∧ s - 3 ≤ 127 ∧
      VARATT_IS_1B e (SET_VARSIZE_SHORT e PTR' (s - 3)) = true ∧
      VARATT_IS_1B_E e (SET_VARSIZE_SHORT e PTR' (s - 3)) = false ∧
      VARSIZE_ANY_EXHDR 4 e (SET_VARSIZE_SHORT e PTR' (s - 3))
        = VARSIZE_ANY_EXHDR 4 e (SET_VARSIZE e PTR s) ∧
      (VARSIZE_ANY_EXHDR 4 e (SET_VARSIZE e PTR s) : Int) = s - 4) := by
  have hV := VARSIZE_4B_SET_VARSIZE_4B e PTR s
  have hK := kind_SET_VARSIZE_4B e PTR s
  have hc := toUint32_cast ((VARSIZE_4B e (SET_VARSIZE_4B e PTR s) : Int) - 4 + 1)
  have hcan : VARATT_CAN_MAKE_SHORT 4 e (SET_VARSIZE e PTR s) = true ↔ s - 4 + 1 ≤ 127 := by
    simp only [VARATT_CAN_MAKE_SHORT, VARSIZE, SET_VARSIZE, hK.2.1, Bool.true_and,
      decide_eq_true_eq, VARHDRSZ_SHORT, VARATT_SHORT_MAX, Nat.cast_one]
    omega
  refine ⟨hcan, fun hyes => ?_⟩
  have hs : s - 4 + 1 ≤ 127 := hcan.mp hyes
  have hS := VARSIZE_1B_SET_VARSIZE_1B e PTR' (s - 3)
  have hKS := kind_SET_VARSIZE_1B e PTR' (s - 3)
  have hE : VARATT_IS_1B_E e (SET_VARSIZE_1B e PTR' (s - 3)) = false := by
    cases hx : VARATT_IS_1B_E e (SET_VARSIZE_1B e PTR' (s - 3))
    · rfl
    · have := hKS.2.2.2.2.mp hx; omega
  have hc4 := toUint32_cast ((VARSIZE_4B e (SET_VARSIZE_4B e PTR s) : Int) - 4)
  have hc1 := toUint32_cast ((VARSIZE_1B e (SET_VARSIZE_1B e PTR' (s - 3)) : Int) - 1)
  have hx4 := VARSIZE_ANY_EXHDR_of_4B 4 e (SET_VARSIZE_4B e PTR s) hK.2.2.2.1
  have hx1 := VARSIZE_ANY_EXHDR_of_short 4 e (SET_VARSIZE_1B e PTR' (s - 3)) hKS.2.2.2.1 hE
  simp only [VARHDRSZ_SHORT, Nat.cast_one] at hx1
  refine ⟨?_, by omega, by omega, hKS.2.2.2.1, hE, ?_, ?_⟩
  · simp only [VARATT_CONVERTED_SHORT_SIZE, VARSIZE, SET_VARSIZE, VARHDRSZ_SHORT, Nat.cast_one]
    omega
  · simp only [SET_VARSIZE_SHORT, SET_VARSIZE, hx1, hx4]
    omega
  · simp only [SET_VARSIZE, hx4]
    omega

/-- A 4-byte header of total size 20 converts to a short header of size 17,
both with 16 bytes of payload (little-endian). -/
theorem can_make_short_witness :
    (4 : Int) ≤ 20 ∧ (20 : Int) ≤ 1073741823 ∧
    VARATT_CAN_MAKE_SHORT 4 .little (SET_VARSIZE .little zeroMem 20) = true ∧
    (VARATT_CONVERTED_SHORT_SIZE 4 .little (SET_VARSIZE .little zeroMem 20) : Int) = 20 - 3 ∧
    VARSIZE_ANY_EXHDR 4 .little (SET_VARSIZE_SHORT .little zeroMem (20 - 3))
      = VARSIZE_ANY_EXHDR 4 .little (SET_VARSIZE .little zeroMem 20) ∧
    (VARSIZE_ANY_EXHDR 4 .little (SET_VARSIZE .little zeroMem 20) : Int) = 20 - 4 :=
  have h := can_make_short .little zeroMem zeroMem 20 (by decide) (by decide)
  have hyes := h.1.mpr (by decide)
  have k := h.2 hyes
  ⟨by decide, by decide, hyes, k.1, k.2.2.2.2.2.1, k.2.2.2.2.2.2⟩

/-- C15: the two families agree.  For `0 ≤ L ≤ 2^30-1` (4-byte kinds),
`1 ≤ L ≤ 127` (Short1) and `0 ≤ L ≤ 255` (External1), encoding with the
big-endian macros and reading with the big-endian macros gives the same kind
classification and the same decoded length (`L`) as encoding and reading with
the little-endian macros; and in both families the kind predicates are the
same on two memories that hold the same byte at the lowest address. -/
theorem endian_families_agree (PTR PTR' : Mem) (L : Int) (h0 : 0 ≤ L) :
    (L ≤ 1073741823 →
      (kind_predicates .big (SET_VARSIZE_4B .big PTR L)
          = kind_predicates .little (SET_VARSIZE_4B .little PTR L) ∧
        (VARSIZE_4B .big (SET_VARSIZE_4B .big PTR L) : Int) = L ∧
        (VARSIZE_4B .little (SET_VARSIZE_4B .little PTR L) : Int) = L ∧
        VARSIZE_ANY .big (SET_VARSIZE_4B .big PTR L)
          = VARSIZE_ANY .little (SET_VARSIZE_4B .little PTR L)) ∧
      (kind_predicates .big (SET_VARSIZE_4B_C .big PTR L)
          = kind_predicates .little (SET_VARSIZE_4B_C .little PTR L) ∧
        (VARSIZE_4B .big (SET_VARSIZE_4B_C .big PTR L) : Int) = L ∧
        (VARSIZE_4B .little (SET_VARSIZE_4B_C .little PTR L) : Int) = L ∧
        VARSIZE_ANY .big (SET_VARSIZE_4B_C .big PTR L)
          = VARSIZE_ANY .little (SET_VARSIZE_4B_C .little PTR L))) ∧
    (1 ≤ L → L ≤ 127 →
      kind_predicates .big (SET_VARSIZE_1B .big PTR L)
        = kind_predicates .little (SET_VARSIZE_1B .little PTR L) ∧
      (VARSIZE_1B .big (SET_VARSIZE_1B .big PTR L) : Int) = L ∧
      (VARSIZE_1B .little (SET_VARSIZE_1B .little PTR L) : Int) = L ∧
      VARSIZE_ANY .big (SET_VARSIZE_1B .big PTR L)
        = VARSIZE_ANY .little (SET_VARSIZE_1B .little PTR L)) ∧
    (L ≤ 255 →
      kind_predicates .big (SET_VARSIZE_1B_E .big PTR L)
        = kind_predicates .little (SET_VARSIZE_1B_E .little PTR L) ∧
      (VARSIZE_1B_E (SET_VARSIZE_1B_E .big PTR L) : Int) = L ∧
      (VARSIZE_1B_E (SET_VARSIZE_1B_E .little PTR L) : Int) = L ∧
      VARSIZE_ANY .big (SET_VARSIZE_1B_E .big PTR L)
        = VARSIZE_ANY .little (SET_VARSIZE_1B_E .little PTR L)) ∧
    (va_header_1b PTR = va_header_1b PTR' →
      kind_predicates .big PTR = kind_predicates .big PTR' ∧
      kind_predicates .little PTR = kind_predicates .little PTR') := by
  refine ⟨fun h1 => ⟨?_, ?_⟩, fun h1 h2 => ?_, fun h1 => ?_, fun h =>
    ⟨kind_predicates_of_first_byte .big PTR PTR' h,
      kind_predicates_of_first_byte .little PTR PTR' h⟩⟩
  · have kb := kind_SET_VARSIZE_4B .big PTR L
    have kl := kind_SET_VARSIZE_4B .little PTR L
    have vb := VARSIZE_4B_SET_VARSIZE_4B .big PTR L
    have vl := VARSIZE_4B_SET_VARSIZE_4B .little PTR L
    refine ⟨?_, by omega, by omega, ?_⟩
    · simp only [kind_predicates, kb, kl]
    · rw [VARSIZE_ANY_of_4B _ _ kb.2.2.2.1, VARSIZE_ANY_of_4B _ _ kl.2.2.2.1]; omega
  · have kb := kind_SET_VARSIZE_4B_C .big PTR L
    have kl := kind_SET_VARSIZE_4B_C .little PTR L
    have vb := VARSIZE_4B_SET_VARSIZE_4B_C .big PTR L
    have vl := VARSIZE_4B_SET_VARSIZE_4B_C .little PTR L
    refine ⟨?_, by omega, by omega, ?_⟩
    · simp only [kind_predicates, kb, kl]
    · rw [VARSIZE_ANY_of_4B _ _ kb.2.2.2.1, VARSIZE_ANY_of_4B _ _ kl.2.2.2.1]; omega
  · have kb := kind_SET_VARSIZE_1B .big PTR L
    have kl := kind_SET_VARSIZE_1B .little PTR L
    have vb := VARSIZE_1B_SET_VARSIZE_1B .big PTR L
    have vl := VARSIZE_1B_SET_VARSIZE_1B .little PTR L
    have eb : VARATT_IS_1B_E .big (SET_VARSIZE_1B .big PTR L) = false := by
      cases hx : VARATT_IS_1B_E .big (SET_VARSIZE_1B .big PTR L)
      · rfl
      · have := kb.2.2.2.2.mp hx; omega
    have el : VARATT_IS_1B_E .little (SET_VARSIZE_1B .little PTR L) = false := by
      cases hx : VARATT_IS_1B_E .little (SET_VARSIZE_1B .little PTR L)
      · rfl
      · have := kl.2.2.2.2.mp hx; omega
    refine ⟨?_, by omega, by omega, ?_⟩
    · simp only [kind_predicates, kb.1, kb.2.1, kb.2.2.1, kb.2.2.2.1, kl.1, kl.2.1, kl.2.2.1,
        kl.2.2.2.1, eb, el]
    · rw [VARSIZE_ANY_of_short _ _ kb.2.2.2.1 eb, VARSIZE_ANY_of_short _ _ kl.2.2.2.1 el]
      omega
  · have kb := kind_SET_VARSIZE_1B_E .big PTR L
    have kl := kind_SET_VARSIZE_1B_E .little PTR L
    have vb := va_len_1be_SET_VARSIZE_1B_E .big PTR L
    have vl := va_len_1be_SET_VARSIZE_1B_E .little PTR L
    have hc := toUint8_cast L
    refine ⟨?_, ?_, ?_, ?_⟩
    · simp only [kind_predicates, kb, kl]
    · simp only [VARSIZE_1B_E, vb]; omega
    · simp only [VARSIZE_1B_E, vl]; omega
    · rw [VARSIZE_ANY_of_external _ _ kb.2.2.2.2, VARSIZE_ANY_of_external _ _ kl.2.2.2.2]
      simp only [VARSIZE_1B_E, vb, vl]

/-- Length 5 encoded as a 4-byte, a short and an external header in both
families. -/
theorem endian_families_agree_witness :
    (0 : Int) ≤ 5 ∧
    kind_predicates .big (SET_VARSIZE_4B .big zeroMem 5)
      = kind_predicates .little (SET_VARSIZE_4B .little zeroMem 5) ∧
    (VARSIZE_4B .big (SET_VARSIZE_4B .big zeroMem 5) : Int) = 5 ∧
    (VARSIZE_4B .little (SET_VARSIZE_4B .little zeroMem 5) : Int) = 5 ∧
    kind_predicates .big (SET_VARSIZE_1B .big zeroMem 5)
      = kind_predicates .little (SET_VARSIZE_1B .little zeroMem 5) ∧
    (VARSIZE_1B_E (SET_VARSIZE_1B_E .big zeroMem 5) : Int) = 5 :=
  have h := endian_families_agree zeroMem zeroMem 5 (by decide)
  have a := (h.1 (by decide)).1
  ⟨by decide, a.1, a.2.1, a.2.2.1, (h.2.1 (by decide) (by decide)).1,
    (h.2.2.1 (by decide)).2.1⟩

/-- C16: the raw-size field of a compressed header is independent of the
length field.  For every 32-bit raw size `r` stored in `va_rawsize` and every
`0 ≤ L ≤ 2^30-1`, in both families, after `SET_VARSIZE_COMPRESSED(L)`
`VARRAWSIZE_4B_C` still returns `r`, `VARSIZE` returns `L` and
`VARATT_IS_COMPRESSED` holds; the macro changes no byte from offset 4 on; and
storing a new `va_rawsize` leaves `VARSIZE` and the kind predicates unchanged. -/
theorem rawsize_independent_of_length (e : Endian) (PTR : Mem) (r : Nat) (L : Int)
    (hr : r < 4294967296) (h0 : 0 ≤ L) (h1 : L ≤ 1073741823) :
    VARRAWSIZE_4B_C e (SET_VARSIZE_COMPRESSED e (set_va_rawsize e PTR r) L) = r ∧
    (VARSIZE e (SET_VARSIZE_COMPRESSED e (set_va_rawsize e PTR r) L) : Int) = L ∧
    VARATT_IS_COMPRESSED e (SET_VARSIZE_COMPRESSED e (set_va_rawsize e PTR r) L) = true ∧
    VARRAWSIZE_4B_C e (SET_VARSIZE_COMPRESSED e PTR L) = VARRAWSIZE_4B_C e PTR ∧
    (∀ i, 4 ≤ i → load8 (SET_VARSIZE_COMPRESSED e PTR L) i = load8 PTR i) ∧
    VARRAWSIZE_4B_C e (set_va_rawsize e PTR r) = r ∧
    VARSIZE e (set_va_rawsize e PTR r) = VARSIZE e PTR ∧
    kind_predicates e (set_va_rawsize e PTR r) = kind_predicates e PTR := by
  have hrr := va_rawsize_set_va_rawsize e PTR r
  rw [Nat.mod_eq_of_lt hr] at hrr
  have hv := VARSIZE_4B_SET_VARSIZE_4B_C e (set_va_rawsize e PTR r) L
  have hk := kind_SET_VARSIZE_4B_C e (set_va_rawsize e PTR r) L
  refine ⟨?_, ?_, hk.2.2.1, ?_, ?_, hrr, ?_,
    kind_predicates_of_first_byte e _ _ (va_header_1b_set_va_rawsize e PTR r)⟩
  · obtain ⟨w, hw⟩ := SET_VARSIZE_4B_C_eq_set e (set_va_rawsize e PTR r) L
    simp only [VARRAWSIZE_4B_C, SET_VARSIZE_COMPRESSED, hw, va_rawsize_set_va_header_4b, hrr]
  · simp only [VARSIZE, SET_VARSIZE_COMPRESSED]; omega
  · obtain ⟨w, hw⟩ := SET_VARSIZE_4B_C_eq_set e PTR L
    simp only [VARRAWSIZE_4B_C, SET_VARSIZE_COMPRESSED, hw, va_rawsize_set_va_header_4b]
  · intro i hi
    obtain ⟨w, hw⟩ := SET_VARSIZE_4B_C_eq_set e PTR L
    simp only [SET_VARSIZE_COMPRESSED, hw, set_va_header_4b]
    exact load8_store32_zero_of_ge e PTR w i hi
  · cases e
    · simp only [VARSIZE, VARSIZE_4B, va_header_4b_set_va_rawsize]
    · simp only [VARSIZE, VARSIZE_4B, va_header_4b_set_va_rawsize]

/-- A compressed header with raw size 1000 whose length is then set to 300
(big-endian). -/
theorem rawsize_independent_of_length_witness :
    1000 < 4294967296 ∧ (0 : Int) ≤ 300 ∧ (300 : Int) ≤ 1073741823 ∧
    VARRAWSIZE_4B_C .big (SET_VARSIZE_COMPRESSED .big (set_va_rawsize .big zeroMem 1000) 300)
      = 1000 ∧
    (VARSIZE .big (SET_VARSIZE_COMPRESSED .big (set_va_rawsize .big zeroMem 1000) 300) : Int)
      = 300 ∧
    VARATT_IS_COMPRESSED .big
      (SET_VARSIZE_COMPRESSED .big (set_va_rawsize .big zeroMem 1000) 300) = true :=
  have h := rawsize_independent_of_length .big zeroMem 1000 300 (by decide) (by decide)
    (by decide)
  ⟨by decide, by decide, by decide, h.1, h.2.1, h.2.2.1⟩

/-- C12: for every byte buffer `B` and every strategy `S`, if
`pglz_compress(B, len(B), dest, S)` returns true, then `pglz_decompress(dest)`
succeeds and reproduces exactly the bytes of `B`, and `PGLZ_RAW_SIZE(dest)` is
`len(B)`; this for every cost of a token in the stream. -/
theorem pglz_roundtrip (cost : Token → Nat) (B : List Nat) (S : PGLZ_Strategy)
    (dest : CompressedBlock) (h : pglz_compress cost B S = some dest) :
    pglz_decompress dest = some B ∧ PGLZ_RAW_SIZE dest = B.length := by
  unfold pglz_compress at h
  split at h
  · cases h
  · split at h
    · cases h
    · rename_i stream hloop
      split at h
      · cases h
      · split at h
        · cases h
        · simp only [Option.some.injEq] at h
          subst h
          have := compressLoop_decodes cost B S B.length 0 0 false 0 stream (by omega)
            (by omega) hloop
          exact ⟨this, rfl⟩

/-- The 12 bytes `1 2 3 4 1 2 3 4 1 2 3 4` compress to four literals and the
tag `(4, 8)`, and decompress to themselves. -/
theorem pglz_roundtrip_witness :
    pglz_compress exampleCost [1, 2, 3, 4, 1, 2, 3, 4, 1, 2, 3, 4] exampleStrategy
      = some ⟨12, [Token.literal 1, Token.literal 2, Token.literal 3, Token.literal 4,
          Token.tag 4 8]⟩ ∧
    pglz_decompress ⟨12, [Token.literal 1, Token.literal 2, Token.literal 3, Token.literal 4,
        Token.tag 4 8]⟩ = some [1, 2, 3, 4, 1, 2, 3, 4, 1, 2, 3, 4] ∧
    PGLZ_RAW_SIZE ⟨12, [Token.literal 1, Token.literal 2, Token.literal 3, Token.literal 4,
        Token.tag 4 8]⟩ = 12 :=
  have h : pglz_compress exampleCost [1, 2, 3, 4, 1, 2, 3, 4, 1, 2, 3, 4] exampleStrategy
      = some ⟨12, [Token.literal 1, Token.literal 2, Token.literal 3, Token.literal 4,
          Token.tag 4 8]⟩ := by decide
  ⟨h, pglz_roundtrip exampleCost _ exampleStrategy _ h⟩

end PgLz
